import Mathlib

/-!
# chroot_execvp: a model of `scripts/chroot_execvp.c`

The launcher moves a directory into the sandbox root, hands it to the sandbox
user, forks a child that chroots, drops privileges, limits itself and execs the
command, and in the parent waits for the child and moves the directory back.

Conventions of the model:

* The LP64 data model the program is built for: `unsigned long` is 64 bits wide
  and `unsigned int` is 32 bits wide.  Machine integers are natural numbers,
  reduced modulo 2^64 or 2^32 where the source can overflow.
* C strings are lists of characters without the terminating NUL; reading the
  character at the end of a string yields NUL.
* Whether a system call succeeds is given by a record `OS`; the functions of the
  source are functions of that record, of the file system, and of `argv`.
* A process is observed through the calls it makes, in order, the way it ends,
  and the file system it leaves.  `fork` is seen from one of the two processes.
* The file system records owner and group of every object; contents and
  permission bits are not modelled.
* A signal is delivered while the parent waits in `waitpid`, the one call in which
  the parent blocks.
-/

namespace ChrootExecvp

/-! ## Constants of the source -/

def SANDBOX_DIR : String := "/var/sandbox"
def SANDBOX_UID : Nat := 666
def SANDBOX_NET_UID : Nat := 667
def CMD_PATH : String :=
  ".:/bin:/sbin:/usr/bin:/usr/sbin:/usr/local/bin:/usr/local/sandbox:/usr/local/sandbox/"
def TMP_PATH : String := "/tmp/grader"
def KB_IN_BYTES : Nat := 1024
def MB_IN_BYTES : Nat := 1048576
def GB_IN_BYTES : Nat := 1073741824

/-- The largest `unsigned long` (64 bits). -/
def ULONG_MAX : Nat := 2 ^ 64 - 1

/-- The NUL character that ends a C string. -/
def NUL : Char := Char.ofNat 0

/-! ## The C library's `strtoul` in base 10 -/

/-- C `isspace` in the C locale: space, and the control characters 9 to 13. -/
def isspace (c : Char) : Bool :=
  c.toNat == 32 || (9 ≤ c.toNat && c.toNat ≤ 13)

/-- C `isdigit`. -/
def isdigit (c : Char) : Bool :=
  48 ≤ c.toNat && c.toNat ≤ 57

/-- The digit loop of `strtoul`: consumes decimal digits, accumulating their
value (unbounded here; the clamp is applied by `strtoul`), and returns the value
with the unread rest of the string. -/
def scan_digits (acc : Nat) : List Char → Nat × List Char
  | [] => (acc, [])
  | c :: cs =>
    if isdigit c then scan_digits (acc * 10 + (c.toNat - 48)) cs else (acc, c :: cs)

/-- Modelled from the C standard, the function being part of the C library and not of
the source: `strtoul(nptr, &end, 10)`, returning the value and the string `end`
points to.  Leading white space is skipped and one optional sign is read.
Without a digit after them nothing is converted: the value is 0 and `end` is
`nptr`.  A value above `ULONG_MAX` is clamped to `ULONG_MAX`; otherwise a minus
sign negates the value in `unsigned long` arithmetic. -/
def strtoul (nptr : List Char) : Nat × List Char :=
  let s := nptr.dropWhile isspace
  let signed : Bool × List Char :=
    match s with
    | '-' :: t => (true, t)
    | '+' :: t => (false, t)
    | _ => (false, s)
  match signed.2 with
  | [] => (0, nptr)
  | c :: t =>
    if isdigit c then
      let r := scan_digits 0 (c :: t)
      (if r.1 > ULONG_MAX then ULONG_MAX
       else if signed.1 then (2 ^ 64 - r.1) % 2 ^ 64 else r.1, r.2)
    else (0, nptr)

/-! ## `parse_number` -/

/-- The source's `parse_number`.  `end[0]` is the first unread character, NUL at the end
of the string; `res *= X` is a multiplication of `unsigned long`, modulo 2^64. -/
def parse_number (argument : List Char) : Nat :=
  if argument = ['-'] then ULONG_MAX
  else
    let r := strtoul argument
    let res := r.1
    let end0 := r.2.headD NUL
    if end0 = 'k' ∨ end0 = 'K' then (res * KB_IN_BYTES) % 2 ^ 64
    else if end0 = 'm' ∨ end0 = 'M' then (res * MB_IN_BYTES) % 2 ^ 64
    else if end0 = 'g' ∨ end0 = 'G' then (res * GB_IN_BYTES) % 2 ^ 64
    else res

/-! ### Reference definitions for the statements about `parse_number` -/

/-- The grammar the specification gives for a limit token: `-`, or one or more decimal
digits optionally followed by exactly one of `k m g` in either case. -/
def well_formed (t : List Char) : Bool :=
  t == ['-'] ||
    (match t.span isdigit with
     | (ds, rest) =>
       !ds.isEmpty &&
         (rest.isEmpty ||
           (rest.length == 1 && ['k', 'K', 'm', 'M', 'g', 'G'].contains (rest.headD NUL))))

/-- Whether `strtoul` finds a number at the start of the token: after optional white
space and one optional sign the next character is a decimal digit. -/
def starts_with_number (t : List Char) : Bool :=
  match t.dropWhile isspace with
  | '-' :: c :: _ => isdigit c
  | '+' :: c :: _ => isdigit c
  | c :: _ => isdigit c
  | [] => false

/-- The scale the specification assigns to a suffix: none is 1, `k` is 1024, `m` is
1024², `g` is 1024³, in either case. -/
def suffix_scale : List Char → Option Nat
  | [] => some 1
  | ['k'] => some 1024
  | ['K'] => some 1024
  | ['m'] => some (1024 ^ 2)
  | ['M'] => some (1024 ^ 2)
  | ['g'] => some (1024 ^ 3)
  | ['G'] => some (1024 ^ 3)
  | _ => none

/-- The factor `parse_number` applies for the character `end[0]` that follows the digits. -/
def scale_of_char (c : Char) : Nat :=
  if c = 'k' ∨ c = 'K' then KB_IN_BYTES
  else if c = 'm' ∨ c = 'M' then MB_IN_BYTES
  else if c = 'g' ∨ c = 'G' then GB_IN_BYTES
  else 1

/-- A decimal token for `n`: its decimal digits, after `z` leading zeros. -/
def decimal (z n : Nat) : List Char :=
  List.replicate z '0' ++ Nat.toDigits 10 n

/-! ## Wait statuses

The macros of `<sys/wait.h>` are not part of the source: the program is modelled
for any definition of them (they are fields of `OS` below).  The sample runs use
the encoding of the GNU C library, on the non-negative status that `waitpid`
stores. -/

/-- The macro `WTERMSIG(status)`, which is `status & 0x7f`. -/
def WTERMSIG (status : Nat) : Nat := status % 128

/-- The macro `WIFEXITED(status)`, which is `WTERMSIG(status) == 0`. -/
def WIFEXITED (status : Nat) : Bool := WTERMSIG status == 0

/-- The macro `WIFSIGNALED(status)`, which is
`((signed char) ((status & 0x7f) + 1) >> 1) > 0`: the low seven bits are
neither 0 (exited) nor 0x7f (stopped). -/
def WIFSIGNALED (status : Nat) : Bool :=
  1 ≤ WTERMSIG status && WTERMSIG status ≤ 126

/-- The macro `WEXITSTATUS(status)`, which is `(status & 0xff00) >> 8`. -/
def WEXITSTATUS (status : Nat) : Nat := (status / 256) % 256

/-! ## The filesystem

A directory tree carries, for every entry, the owner and group that `lchown`
sets.  The three kinds of entry are the three cases the source distinguishes on
`d_type`: `DT_REG`, `DT_DIR`, and everything else (symbolic links, fifos, ...).
The entries `.` and `..`, which the source skips, are not listed. -/

mutual
/-- A file system object with its owner and group. -/
inductive Node where
  | reg (uid gid : Nat)
  | other (uid gid : Nat)
  | dir (uid gid : Nat) (entries : Entries)
/-- The entries of a directory, in the order `readdir` yields them. -/
inductive Entries where
  | nil
  | cons (name : String) (node : Node) (rest : Entries)
end

/-- Owner of an object (`st_uid`). -/
def Node.uid : Node → Nat
  | .reg u _ => u
  | .other u _ => u
  | .dir u _ _ => u

/-- Group of an object (`st_gid`). -/
def Node.gid : Node → Nat
  | .reg _ g => g
  | .other _ g => g
  | .dir _ g _ => g

/-- The value of `d_type` for an entry. -/
inductive DType where
  | DT_REG
  | DT_DIR
  | DT_OTHER
  deriving DecidableEq, Repr

/-- One line of a recursive listing: path, type, owner, group. -/
structure Listed where
  path : String
  d_type : DType
  uid : Nat
  gid : Nat
  deriving DecidableEq, Repr

mutual
/-- The recursive listing of the object at `path`, itself included. -/
def Node.listing (path : String) : Node → List Listed
  | .reg u g => [⟨path, .DT_REG, u, g⟩]
  | .other u g => [⟨path, .DT_OTHER, u, g⟩]
  | .dir u g es => ⟨path, .DT_DIR, u, g⟩ :: Entries.listing path es
/-- The recursive listing of the entries of the directory at `dir`. -/
def Entries.listing (dir : String) : Entries → List Listed
  | .nil => []
  | .cons name node rest =>
    Node.listing (dir ++ "/" ++ name) node ++ Entries.listing dir rest
end

/-- The outcome of `rename`: success, failure with `errno == EXDEV` (source and
destination are on different file systems), or any other failure. -/
inductive RenameResult where
  | ok
  | EXDEV
  | error
  deriving DecidableEq, Repr

/-- The outcome of `fork`, seen from the process that continues: -1 (no child), 0 (in
the child), or the child's pid (in the parent). -/
inductive ForkResult where
  | failed
  | child
  | parent (pid : Nat)
  deriving DecidableEq, Repr

/-- What one call of `waitpid` in the parent leads to: it fails (returns -1); it
returns with the wait status `s`; or a signal that `connect_signals` routes to
`handle_signals` arrives while the parent waits. -/
inductive WaitResult where
  | error
  | status (s : Nat)
  | signal (sig : Nat)
  deriving DecidableEq, Repr

/-- The three resources `limit_process` limits. -/
inductive Resource where
  | RLIMIT_FSIZE
  | RLIMIT_NOFILE
  | RLIMIT_AS
  deriving DecidableEq, Repr

/-- The platform: the outcomes of the system calls that the program does not determine
itself, and the macros of `<sys/wait.h>` that `main` applies to the wait status. -/
structure OS where
  WIFEXITED : Nat → Bool
  WIFSIGNALED : Nat → Bool
  WEXITSTATUS : Nat → Nat
  malloc_ok : Bool
  access_ok : String → Bool
  tempnam : Option String
  rename : String → String → RenameResult
  lstat_ok : String → Bool
  lchown_ok : String → Bool
  opendir_ok : String → Bool
  fork : ForkResult
  chroot_ok : Bool
  setuid_ok : Bool
  chdir_ok : Bool
  getpwuid : Option String
  setrlimit_ok : Resource → Bool
  setenv_ok : Bool
  execvpe_ok : Bool
  waits : List WaitResult

/-- The source's `fail`: reports `errno` and returns 1. -/
def fail (_at : String) : Nat := 1

/-! ## `chown_directory` -/

mutual
/-- The source's `chown_directory` on the object found at `dir`: `lchown` on it, then
`opendir` (which fails on anything but a directory), then the loop over the
entries.  Returns the status and the object as it is left, also on failure. -/
def chown_directory (os : OS) (dir : String) (uid gid : Nat) : Node → Nat × Node
  | .reg u g =>
    if os.lchown_ok dir then (fail "chown_directory", .reg uid gid)
    else (fail "chown_directory", .reg u g)
  | .other u g =>
    if os.lchown_ok dir then (fail "chown_directory", .other uid gid)
    else (fail "chown_directory", .other u g)
  | .dir u g es =>
    if os.lchown_ok dir then
      if os.opendir_ok dir then
        let r := chown_entries os dir uid gid es
        (r.1, .dir uid gid r.2)
      else (fail "chown_directory", .dir uid gid es)
    else (fail "chown_directory", .dir u g es)
/-- The `readdir` loop of `chown_directory` over the entries of `dir`. -/
def chown_entries (os : OS) (dir : String) (uid gid : Nat) : Entries → Nat × Entries
  | .nil => (0, .nil)
  | .cons name (.reg u g) rest =>
    if os.lchown_ok (dir ++ "/" ++ name) then
      let r := chown_entries os dir uid gid rest
      (r.1, .cons name (.reg uid gid) r.2)
    else (fail "chown_directory", .cons name (.reg u g) rest)
  | .cons name (.other u g) rest =>
    let r := chown_entries os dir uid gid rest
    (r.1, .cons name (.other u g) r.2)
  | .cons name (.dir u g es) rest =>
    let c := chown_directory os (dir ++ "/" ++ name) uid gid (.dir u g es)
    if c.1 ≠ 0 then (1, .cons name c.2 rest)
    else
      let r := chown_entries os dir uid gid rest
      (r.1, .cons name c.2 r.2)
end

/-! ## `copy_directory` and `move_directory` -/

/-- The result of copying a tree: the status, what is left of the source, and what
was created at the destination. -/
structure Copied (α : Type) (β : Type) where
  status : Nat
  left : α
  made : β

mutual
/-- The source's `copy_directory` from a directory into a destination that does not
exist yet: `mkdir` and `lchown` give the new directory the owner and group of the
source, the entries are copied by `copy_entries`, and `rmdir` removes the source,
which fails while entries are left in it.  The system calls of the copy other
than that `rmdir`, and `opendir` on something that is not a directory, are taken
to succeed. -/
def copy_directory : Node → Copied (Option Node) Node
  | .reg u g => ⟨fail "copy_directory", some (.reg u g), .dir u g .nil⟩
  | .other u g => ⟨fail "copy_directory", some (.other u g), .dir u g .nil⟩
  | .dir u g es =>
    let r := copy_entries es
    if r.status ≠ 0 then ⟨1, some (.dir u g r.left), .dir u g r.made⟩
    else
      match r.left with
      | .nil => ⟨0, none, .dir u g r.made⟩
      | .cons n x rest => ⟨fail "copy_directory", some (.dir u g (.cons n x rest)), .dir u g r.made⟩
/-- The `readdir` loop of `copy_directory`: `copy_file` moves a regular file and
keeps its owner and group, a directory is copied recursively, any other entry is
skipped and stays in the source. -/
def copy_entries : Entries → Copied Entries Entries
  | .nil => ⟨0, .nil, .nil⟩
  | .cons name (.reg u g) rest =>
    let r := copy_entries rest
    ⟨r.status, r.left, .cons name (.reg u g) r.made⟩
  | .cons name (.other u g) rest =>
    let r := copy_entries rest
    ⟨r.status, .cons name (.other u g) r.left, r.made⟩
  | .cons name (.dir u g es) rest =>
    let c := copy_directory (.dir u g es)
    match c.left with
    | some l =>
      if c.status ≠ 0 then ⟨1, .cons name l rest, .cons name c.made .nil⟩
      else
        let r := copy_entries rest
        ⟨r.status, .cons name l r.left, .cons name c.made r.made⟩
    | none =>
      if c.status ≠ 0 then ⟨1, rest, .cons name c.made .nil⟩
      else
        let r := copy_entries rest
        ⟨r.status, r.left, .cons name c.made r.made⟩
end

/-- The part of the file system the program touches: what is found at a path. -/
abbrev FS := String → Option Node

/-- The file system with the object at `p` replaced (or removed). -/
def FS.set (fs : FS) (p : String) (n : Option Node) : FS :=
  fun q => if q = p then n else fs q

/-- The source's `move_directory`.  `rename` fails when there is nothing at `dir`;
on `EXDEV` the tree is copied by `copy_directory`.  The destination does not
exist at either call site: `tempnam` names a file that does not exist, and the
original path was vacated when the directory was staged. -/
def move_directory (os : OS) (fs : FS) (dir to_ : String) : Nat × FS :=
  match fs dir with
  | none => (fail "move_directory", fs)
  | some n =>
    match os.rename dir to_ with
    | .ok => (0, (fs.set dir none).set to_ (some n))
    | .EXDEV =>
      let c := copy_directory n
      if c.status ≠ 0 then (1, (fs.set dir c.left).set to_ (some c.made))
      else (0, (fs.set dir c.left).set to_ (some c.made))
    | .error => (fail "move_directory", fs)

/-- The source's `chown_directory` called on a path: `lchown` fails when there is
nothing at the path. -/
def chown_directory_at (os : OS) (fs : FS) (path : String) (uid gid : Nat) : Nat × FS :=
  match fs path with
  | none => (fail "chown_directory", fs)
  | some n =>
    let r := chown_directory os path uid gid n
    (r.1, fs.set path (some r.2))

/-! ## The process

A run is observed as the sequence of calls the process makes, how it ends, and
the file system it leaves.  Calls to the program's own `move_directory`,
`chown_directory` and `cleanup` are recorded as such, with their status. -/

/-- The signal number of `SIGKILL`. -/
def SIGKILL : Nat := 9

/-- A call made by the process. -/
inductive Call where
  | usage
  | connect_signals
  | malloc
  | access (path : String)
  | tempnam (dir : String)
  | move_directory (dir to_ : String) (status : Nat)
  | lstat (path : String)
  | chown_directory (dir : String) (uid gid : Nat) (status : Nat)
  | alarm (seconds : Nat)
  | fork
  | chroot (path : String)
  | setuid (uid : Nat)
  | chdir (path : String)
  | getpwuid (uid : Nat)
  | setrlimit (resource : Resource) (rlim_cur rlim_max : Nat)
  | setenv (name value : String)
  | execvpe (file : Option String) (argv : List (Option String)) (envp : List String)
  | waitpid (pid : Int)
  | kill (pid : Int) (sig : Nat)
  | cleanup
  | _exit (code : Nat)
  deriving DecidableEq, Repr

/-- How the process ends: `main` returns, or `_exit` is called, with a code; the
process image is replaced by a successful `execvpe`; or the parent still waits
after the last listed result of `waitpid`. -/
inductive Outcome where
  | exited (code : Nat)
  | replaced
  | waiting
  deriving DecidableEq, Repr

/-- The static variables of the source. -/
structure Globals where
  dir : Option String
  path : Option String
  orig_uid : Nat
  orig_gid : Nat
  pid : Int
  time_limit : Nat

/-- An observed run. -/
structure Run where
  trace : List Call
  outcome : Outcome
  fs : FS

/-- The source's `cleanup`: the calls it makes and the file system it leaves. -/
def cleanup (os : OS) (g : Globals) (fs : FS) : List Call × FS :=
  match g.path with
  | some path =>
    let c : List Call × FS :=
      if g.orig_uid > 0 then
        let r := chown_directory_at os fs path g.orig_uid g.orig_gid
        ([Call.chown_directory path g.orig_uid g.orig_gid r.1], r.2)
      else ([], fs)
    match g.dir with
    | none => (Call.cleanup :: c.1, c.2)
    | some dir =>
      let m := move_directory os c.2 path dir
      (Call.cleanup :: (c.1 ++ [Call.move_directory path dir m.1]), m.2)
  | none => ([Call.cleanup], fs)

/-- The source's `handle_signals`: kill the child if there is one, clean up, `_exit(1)`. -/
def handle_signals (os : OS) (g : Globals) (fs : FS) (_sig : Nat) : Run :=
  let k : List Call := if g.pid ≠ 0 then [Call.kill g.pid SIGKILL] else []
  let c := cleanup os g fs
  ⟨k ++ c.1 ++ [Call._exit 1], .exited 1, c.2⟩

/-- The source's `limit_process`: the status and the `setrlimit` calls made. -/
def limit_process (os : OS) (memory files disk : Nat) : Nat × List Call :=
  let t1 : List Call :=
    if disk < ULONG_MAX then [Call.setrlimit .RLIMIT_FSIZE disk disk] else []
  if disk < ULONG_MAX ∧ os.setrlimit_ok .RLIMIT_FSIZE = false then (fail "limit_process", t1)
  else
    let t2 : List Call :=
      if files < ULONG_MAX then t1 ++ [Call.setrlimit .RLIMIT_NOFILE files files] else t1
    if files < ULONG_MAX ∧ os.setrlimit_ok .RLIMIT_NOFILE = false then
      (fail "limit_process", t2)
    else
      let t3 : List Call :=
        if memory < ULONG_MAX then t2 ++ [Call.setrlimit .RLIMIT_AS memory memory] else t2
      if memory < ULONG_MAX ∧ os.setrlimit_ok .RLIMIT_AS = false then
        (fail "limit_process", t3)
      else (0, t3)

/-- The writes of the loop `while (argn < argc)` that fills `arg` from index `p` on,
over the arguments not yet copied, and of the final `arg[p] = NULL`. -/
def arg_writes (p : Nat) : List String → List (Nat × Option String)
  | [] => [(p, none)]
  | a :: rest => (p, some a) :: arg_writes (p + 1) rest

/-- The argument vector as the child builds it. -/
structure ArgVector where
  cmd_index : Nat
  cmd : Option String
  declared_length : Int
  writes : List (Nat × Option String)

/-- The block "Create command line array" of `main`: `cmd = argv[argp + 6]` (`NULL`
when that is `argv[argc]`), the array `char *arg[argc - argn]` with
`argn = argp + 7`, and the writes into it. -/
def build_arg (argv : List String) (argp : Nat) : ArgVector :=
  let cmd := argv.get? (argp + 6)
  let argn := argp + 7
  ⟨argp + 6, cmd, (argv.length : Int) - (argn : Int), (0, cmd) :: arg_writes 1 (argv.drop argn)⟩

/-- The values `main` prepares before forking that the child uses. -/
structure Prepared where
  argp : Nat
  uid : Nat
  local_path : String
  memory : Nat
  files : Nat
  disk : Nat
  cmd_path : String

/-- The branch `pid == 0` of `main`: the child. -/
def child (os : OS) (argv : List String) (p : Prepared) : List Call × Outcome :=
  if os.chroot_ok = false then ([Call.chroot SANDBOX_DIR], .exited (fail "main"))
  else if os.setuid_ok = false then
    ([Call.chroot SANDBOX_DIR, Call.setuid p.uid], .exited (fail "main"))
  else if os.chdir_ok = false then
    ([Call.chroot SANDBOX_DIR, Call.setuid p.uid, Call.chdir p.local_path],
      .exited (fail "main"))
  else
    let arg := build_arg argv p.argp
    let t0 : List Call :=
      [Call.chroot SANDBOX_DIR, Call.setuid p.uid, Call.chdir p.local_path, Call.getpwuid p.uid]
    match os.getpwuid with
    | none => (t0, .exited (fail "main"))
    | some pw_dir =>
      let env : List String := ["PATH=" ++ p.cmd_path, "HOME=" ++ pw_dir, "DISPLAY=:0"]
      let l := limit_process os p.memory p.files p.disk
      if l.1 ≠ 0 then (t0 ++ l.2, .exited 1)
      else if os.setenv_ok = false then
        (t0 ++ l.2 ++ [Call.setenv "PATH" p.cmd_path], .exited (fail "main"))
      else
        let t1 := t0 ++ l.2 ++
          [Call.setenv "PATH" p.cmd_path, Call.execvpe arg.cmd (arg.writes.map Prod.snd) env]
        if os.execvpe_ok then (t1, .replaced) else (t1, .exited (fail "main"))

/-- How the loop around `waitpid` ends: `waitpid` failed; a status said the child
exited or was killed by a signal; a signal arrived and `handle_signals` ran; or
no further result of `waitpid` is listed. -/
inductive Waited where
  | failed
  | terminated (status : Nat)
  | signalled (sig : Nat)
  | blocked
  deriving DecidableEq, Repr

/-- The loop `do w = waitpid(pid, &status, 0) while (!WIFEXITED(status) &&
!WIFSIGNALED(status))` over the results the calls of `waitpid` have: the number of
calls made and how the loop ends. -/
def wait_loop (os : OS) : List WaitResult → Nat × Waited
  | [] => (0, .blocked)
  | .error :: _ => (1, .failed)
  | .signal sig :: _ => (1, .signalled sig)
  | .status s :: rest =>
    if !os.WIFEXITED s && !os.WIFSIGNALED s then
      let r := wait_loop os rest
      (r.1 + 1, r.2)
    else (1, .terminated s)

/-- The branch of `main` that waits for the child: the parent. -/
def parent (os : OS) (g : Globals) (fs : FS) : Run :=
  let w := wait_loop os os.waits
  let t := List.replicate w.1 (Call.waitpid g.pid)
  match w.2 with
  | .failed => ⟨t, .exited (fail "main"), fs⟩
  | .blocked => ⟨t, .waiting, fs⟩
  | .signalled sig =>
    let h := handle_signals os g fs sig
    ⟨t ++ h.trace, h.outcome, h.fs⟩
  | .terminated status =>
    let c := cleanup os g fs
    if os.WIFEXITED status then ⟨t ++ c.1, .exited (os.WEXITSTATUS status), c.2⟩
    else ⟨t ++ c.1, .exited (fail "main"), c.2⟩

/-- The statement "Limit maximum run time" of `main`: the translated value is stored
in the `unsigned int` variable `time_limit`, and the alarm is set when
`time_limit > 0 && time_limit < ULONG_MAX`.  Returns `time_limit` and the call. -/
def limit_time (argument : List Char) : Nat × List Call :=
  let time_limit := parse_number argument % 2 ^ 32
  if time_limit > 0 ∧ time_limit < ULONG_MAX then (time_limit, [Call.alarm time_limit])
  else (time_limit, [])

/-- The part of `main` from the fork on. -/
def run_forked (os : OS) (fs : FS) (argv : List String) (g : Globals) (p : Prepared) : Run :=
  match os.fork with
  | .failed => ⟨[Call.fork], .exited (fail "main"), fs⟩
  | .child =>
    let c := child os argv p
    ⟨Call.fork :: c.1, c.2, fs⟩
  | .parent pid =>
    let r := parent os { g with pid := (pid : Int) } fs
    ⟨Call.fork :: r.trace, r.outcome, r.fs⟩

/-- The block "Prepare values before forking" of `main`: the working directory inside
the jail is the staged path without the prefix `SANDBOX_DIR` (`TMP_PATH` when no
directory is staged), the ceilings are translated by `parse_number`, and the
search path is `CMD_PATH` followed by the course key. -/
def prepare (argv : List String) (argp uid : Nat) (g : Globals) : Prepared :=
  let local_path : String :=
    match g.path with
    | some path => path.drop SANDBOX_DIR.length
    | none => TMP_PATH
  let memory := parse_number (argv.getD (argp + 1) "").data
  let files := parse_number (argv.getD (argp + 2) "").data
  let disk := parse_number (argv.getD (argp + 3) "").data
  let cmd_path := CMD_PATH ++ argv.getD (argp + 5) ""
  ⟨argp, uid, local_path, memory, files, disk, cmd_path⟩

/-- The part of `main` after the directory is staged: the values prepared before
forking, the alarm, and the fork. -/
def run_limited (os : OS) (fs : FS) (argv : List String) (argp uid : Nat) (g : Globals) : Run :=
  let p := prepare argv argp uid g
  let a := limit_time (argv.getD argp "").data
  let r := run_forked os fs argv { g with time_limit := a.1 } p
  ⟨a.2 ++ r.trace, r.outcome, r.fs⟩

/-- The call `lstat(path, &path_stat)`: the object at `path`, if the call succeeds. -/
def lstat (os : OS) (fs : FS) (path : String) : Option Node :=
  if os.lstat_ok path then fs path else none

/-- The block of `main` that stages the directory `dir` and hands it to `uid`; on
success the run continues with `run_limited`. -/
def run_staged (os : OS) (fs : FS) (argv : List String) (argp uid : Nat) (dir : String) : Run :=
  let tmp_path := SANDBOX_DIR ++ TMP_PATH
  if os.access_ok dir = false then ⟨[Call.access dir], .exited (fail "main"), fs⟩
  else if os.access_ok tmp_path = false then
    ⟨[Call.access dir, Call.access tmp_path], .exited (fail "main"), fs⟩
  else
    let t0 : List Call := [Call.access dir, Call.access tmp_path, Call.tempnam tmp_path]
    match os.tempnam with
    | none => ⟨t0, .exited (fail "main"), fs⟩
    | some path =>
      let m := move_directory os fs dir path
      let t1 := t0 ++ [Call.move_directory dir path m.1]
      if m.1 ≠ 0 then ⟨t1, .exited 1, m.2⟩
      else
        let t2 := t1 ++ [Call.lstat path]
        match lstat os m.2 path with
        | none => ⟨t2, .exited (fail "main"), m.2⟩
        | some path_stat =>
          let orig_uid := path_stat.uid
          let orig_gid := path_stat.gid
          let c := chown_directory_at os m.2 path uid orig_gid
          let t3 := t2 ++ [Call.chown_directory path uid orig_gid c.1]
          if c.1 ≠ 0 then ⟨t3, .exited 1, c.2⟩
          else
            let r := run_limited os c.2 argv argp uid
              ⟨some dir, some path, orig_uid, orig_gid, 0, 0⟩
            ⟨t3 ++ r.trace, r.outcome, r.fs⟩

/-- The test `argc > argp && strcmp(argv[argp], "net") == 0` at the start of `main`,
where `argp` is 1. -/
def net_requested (argv : List String) : Bool :=
  decide (argv.length > 1) && argv.getD 1 "" == "net"

/-- The value of `argp` after the check of the `net` argument. -/
def argp_of (argv : List String) : Nat :=
  if net_requested argv then 2 else 1

/-- The value of `uid` after the check of the `net` argument. -/
def uid_of (argv : List String) : Nat :=
  if net_requested argv then SANDBOX_NET_UID else SANDBOX_UID

/-- The directory argument `argv[argp + 4]`. -/
def dir_of (argv : List String) : String :=
  argv.getD (argp_of argv + 4) ""

/-- The source's `main`, for the argument vector `argv` (program name included, so
`argc` is its length) on the file system `fs`. -/
def main (os : OS) (fs : FS) (argv : List String) : Run :=
  let argc := argv.length
  let argp := argp_of argv
  let uid := uid_of argv
  if argc < 6 + argp then ⟨[Call.usage], .exited 0, fs⟩
  else if os.malloc_ok = false then
    ⟨[Call.connect_signals, Call.malloc], .exited (fail "main"), fs⟩
  else
    let dir := dir_of argv
    let r : Run :=
      if dir ≠ "-" then run_staged os fs argv argp uid dir
      else run_limited os fs argv argp uid ⟨some dir, none, 0, 0, 0, 0⟩
    ⟨Call.connect_signals :: Call.malloc :: r.trace, r.outcome, r.fs⟩

/-! ## Reference definitions for the statements -/

/-- The calls made when a sequence of steps is carried out in order and abandoned
after the first step that fails. -/
def attempted : List (Call × Bool) → List Call
  | [] => []
  | (c, ok) :: rest => c :: (if ok then attempted rest else [])

/-- The ceilings `limit_process` has to apply, in order, each with whether
`setrlimit` succeeds: disk, files, memory, leaving out the ceilings that are
`ULONG_MAX` (unlimited). -/
def limit_plan (os : OS) (p : Prepared) : List (Call × Bool) :=
  (if p.disk < ULONG_MAX then
    [(Call.setrlimit .RLIMIT_FSIZE p.disk p.disk, os.setrlimit_ok .RLIMIT_FSIZE)] else []) ++
  (if p.files < ULONG_MAX then
    [(Call.setrlimit .RLIMIT_NOFILE p.files p.files, os.setrlimit_ok .RLIMIT_NOFILE)] else []) ++
  (if p.memory < ULONG_MAX then
    [(Call.setrlimit .RLIMIT_AS p.memory p.memory, os.setrlimit_ok .RLIMIT_AS)] else [])

/-- The steps of the child in the order the specification gives, each with whether it
succeeds: root change, identity drop, working directory, home lookup, the
ceilings, the search path, and the exec. -/
def child_plan (os : OS) (argv : List String) (p : Prepared) : List (Call × Bool) :=
  (Call.chroot SANDBOX_DIR, os.chroot_ok) :: (Call.setuid p.uid, os.setuid_ok) ::
  (Call.chdir p.local_path, os.chdir_ok) :: (Call.getpwuid p.uid, os.getpwuid.isSome) ::
  (limit_plan os p ++
    [(Call.setenv "PATH" p.cmd_path, os.setenv_ok),
     (Call.execvpe (build_arg argv p.argp).cmd ((build_arg argv p.argp).writes.map Prod.snd)
        ["PATH=" ++ p.cmd_path, "HOME=" ++ os.getpwuid.getD "", "DISPLAY=:0"], os.execvpe_ok)])

/-- Whether a call is the exec of the target program. -/
def Call.is_exec : Call → Bool
  | .execvpe _ _ _ => true
  | _ => false

/-- A line of a listing after `lchown` to `uid` and `gid` of every regular file and
directory; other entries are left as they are. -/
def Listed.chowned (uid gid : Nat) (e : Listed) : Listed :=
  if e.d_type = .DT_OTHER then e else ⟨e.path, e.d_type, uid, gid⟩

/-! ## Sample runs -/

/-- A platform with the wait macros of the GNU C library, on which every call
succeeds, with the given result of `fork` and results of `waitpid`. -/
def os_ok (fork : ForkResult) (waits : List WaitResult) : OS where
  WIFEXITED := WIFEXITED
  WIFSIGNALED := WIFSIGNALED
  WEXITSTATUS := WEXITSTATUS
  malloc_ok := true
  access_ok := fun _ => true
  tempnam := some "/var/sandbox/tmp/grader/fileAbc123"
  rename := fun _ _ => .ok
  lstat_ok := fun _ => true
  lchown_ok := fun _ => true
  opendir_ok := fun _ => true
  fork := fork
  chroot_ok := true
  setuid_ok := true
  chdir_ok := true
  getpwuid := some "/home/sandbox"
  setrlimit_ok := fun _ => true
  setenv_ok := true
  execvpe_ok := true
  waits := waits

/-- A sample directory owned by `uid` and `gid`: a file, a subdirectory with a file
of group 200, and a symbolic link. -/
def sample_tree (uid gid : Nat) : Node :=
  .dir uid gid
    (.cons "a.txt" (.reg uid gid)
      (.cons "sub" (.dir uid gid (.cons "b" (.reg uid 200) .nil))
        (.cons "link" (.other uid gid) .nil)))

/-- A file system with the sample directory at `/home/u/ex`. -/
def sample_fs (n : Node) : FS :=
  FS.set (fun _ => none) "/home/u/ex" (some n)

/-- The invocation `chroot_execvp time 64m 20 10m /home/u/ex cs101 echo hi`. -/
def sample_argv (time : String) : List String :=
  ["chroot_execvp", time, "64m", "20", "10m", "/home/u/ex", "cs101", "echo", "hi"]

/-- The values prepared for the sample invocation. -/
def sample_prepared : Prepared :=
  ⟨1, SANDBOX_UID, "/tmp/grader/fileAbc123", 67108864, 20, 10485760, CMD_PATH ++ "cs101"⟩

/-- An operating system on which `setuid` fails in the child. -/
def os_setuid_fails : OS :=
  { os_ok .child [] with setuid_ok := false }

/-- A call that `main` makes while it prepares the run, or that moves and re-owns the
directory: none of `fork`, `waitpid`, `kill`, `cleanup`, `_exit`, and none of the
calls of the child. -/
def Call.is_preparation : Call → Bool
  | .usage => true
  | .connect_signals => true
  | .malloc => true
  | .access _ => true
  | .tempnam _ => true
  | .move_directory _ _ _ => true
  | .lstat _ => true
  | .chown_directory _ _ _ _ => true
  | .alarm _ => true
  | _ => false

/-- How the loop around `waitpid` ends when `last` is the result of its last call. -/
def WaitResult.ends : WaitResult → Waited
  | .error => .failed
  | .signal sig => .signalled sig
  | .status s => .terminated s

/-- An operating system on which `lstat` fails. -/
def os_lstat_fails : OS :=
  { os_ok (.parent 42) [.status 0] with lstat_ok := fun _ => false }

/-- An operating system on which `lchown` fails on the subdirectory of the staged
sample directory. -/
def os_chown_fails : OS :=
  { os_ok (.parent 42) [.status 0] with
    lchown_ok := fun p => p != "/var/sandbox/tmp/grader/fileAbc123/sub" }

/-- The staging path that `tempnam` yields on the sample operating systems. -/
def sample_path : String := "/var/sandbox/tmp/grader/fileAbc123"

/-- The run of the sample invocation, with a time limit of 5 seconds, on the sample
directory owned by uid 1000 and group 100. -/
def sample_run (os : OS) : Run :=
  main os (sample_fs (sample_tree 1000 100)) (sample_argv "5")

/-- A run of the sample invocation that staged the directory (the move succeeded),
then ended with exit code 1 without a call of `cleanup`, leaving nothing at the
original path and the directory at the staging path. -/
def Run.abandons_staged (r : Run) : Prop :=
  Call.move_directory "/home/u/ex" sample_path 0 ∈ r.trace ∧
  Call.cleanup ∉ r.trace ∧
  r.outcome = Outcome.exited 1 ∧
  (r.fs "/home/u/ex").isNone = true ∧
  (r.fs sample_path).isSome = true

instance (r : Run) : Decidable r.abandons_staged := by
  unfold Run.abandons_staged
  infer_instance


/-! ## Facts about `strtoul` -/

theorem digitChar_spec : ∀ d, d < 10 →
    isdigit (Nat.digitChar d) = true ∧ (Nat.digitChar d).toNat - 48 = d := by
  decide

theorem scan_digits_toDigitsCore (f : Nat) : ∀ (n : Nat) (ds rest : List Char), n < f →
    scan_digits 0 (Nat.toDigitsCore 10 f n ds ++ rest) = scan_digits n (ds ++ rest) := by
  induction f with
  | zero => intro n ds rest h; omega
  | succ f ih =>
    intro n ds rest h
    have hd := digitChar_spec (n % 10) (Nat.mod_lt _ (by decide))
    unfold Nat.toDigitsCore
    by_cases h0 : n / 10 = 0
    · have hn : n % 10 = n := by omega
      simp only [h0, if_true, List.cons_append]
      rw [scan_digits, hd.1, if_pos rfl, hd.2, hn]
      simp
    · simp only [h0, if_false]
      rw [ih (n / 10) _ rest (by omega)]
      simp only [List.cons_append]
      rw [scan_digits, hd.1, if_pos rfl, hd.2]
      congr 1
      omega

theorem scan_digits_toDigits (n : Nat) (rest : List Char) :
    scan_digits 0 (Nat.toDigits 10 n ++ rest) = scan_digits n rest := by
  unfold Nat.toDigits
  rw [scan_digits_toDigitsCore (n + 1) n [] rest (by omega)]
  simp

theorem scan_digits_zeros (z : Nat) (rest : List Char) :
    scan_digits 0 (List.replicate z '0' ++ rest) = scan_digits 0 rest := by
  induction z with
  | zero => simp
  | succ z ih =>
    simp only [List.replicate_succ, List.cons_append]
    rw [scan_digits]
    simp [isdigit, ih]

theorem scan_digits_decimal (z n : Nat) (rest : List Char) :
    scan_digits 0 (decimal z n ++ rest) = scan_digits n rest := by
  unfold decimal
  rw [List.append_assoc, scan_digits_zeros, scan_digits_toDigits]

theorem scan_digits_stop (acc : Nat) (rest : List Char)
    (h : isdigit (rest.headD NUL) = false) : scan_digits acc rest = (acc, rest) := by
  cases rest with
  | nil => rfl
  | cons c cs =>
    simp only [List.headD_cons] at h
    rw [scan_digits, h]
    simp

theorem toDigitsCore_head (f : Nat) : ∀ (n : Nat) (d : Char) (ds : List Char),
    isdigit d = true → ∃ c t, Nat.toDigitsCore 10 f n (d :: ds) = c :: t ∧ isdigit c = true := by
  induction f with
  | zero => intro n d ds h; exact ⟨d, ds, rfl, h⟩
  | succ f ih =>
    intro n d ds h
    have hd := digitChar_spec (n % 10) (Nat.mod_lt _ (by decide))
    unfold Nat.toDigitsCore
    by_cases h0 : n / 10 = 0
    · simp only [h0, if_true]
      exact ⟨_, _, rfl, hd.1⟩
    · simp only [h0, if_false]
      exact ih _ _ _ hd.1

theorem decimal_head (z n : Nat) :
    ∃ c t, decimal z n = c :: t ∧ isdigit c = true := by
  cases z with
  | succ z => exact ⟨'0', List.replicate z '0' ++ Nat.toDigits 10 n, rfl, by decide⟩
  | zero =>
    have hd := digitChar_spec (n % 10) (Nat.mod_lt _ (by decide))
    simp only [decimal, List.replicate_zero, List.nil_append]
    unfold Nat.toDigits Nat.toDigitsCore
    by_cases h0 : n / 10 = 0
    · simp only [h0, if_true]
      exact ⟨_, _, rfl, hd.1⟩
    · simp only [h0, if_false]
      exact toDigitsCore_head _ _ _ _ hd.1

theorem strtoul_digit_head (c : Char) (t : List Char) (h : isdigit c = true) :
    strtoul (c :: t) =
      (if (scan_digits 0 (c :: t)).1 > ULONG_MAX then ULONG_MAX else (scan_digits 0 (c :: t)).1,
       (scan_digits 0 (c :: t)).2) := by
  have hsp : isspace c = false := by
    simp only [isdigit, isspace, Bool.and_eq_true, decide_eq_true_eq] at h ⊢
    simp only [Bool.or_eq_false_iff, Bool.and_eq_false_iff, beq_eq_false_iff_ne,
      decide_eq_false_iff_not]
    omega
  have hm : c ≠ '-' := by rintro rfl; exact absurd h (by decide)
  have hp : c ≠ '+' := by rintro rfl; exact absurd h (by decide)
  unfold strtoul
  simp only [List.dropWhile_cons, hsp]
  split
  · rename_i heq
    simp only [Bool.false_eq_true, if_false] at heq
    split at heq
    · simp_all
    · simp_all
    · simp at heq
  · rename_i c1 t1 heq
    simp only [Bool.false_eq_true, if_false] at heq
    split at heq
    · simp_all
    · simp_all
    · simp only at heq
      obtain ⟨rfl, rfl⟩ := List.cons.inj heq
      simp [h]

/-- What `strtoul` returns on a decimal token followed by a non-digit. -/
theorem strtoul_decimal (z n : Nat) (rest : List Char)
    (h : isdigit (rest.headD NUL) = false) :
    strtoul (decimal z n ++ rest) = (if n > ULONG_MAX then ULONG_MAX else n, rest) := by
  obtain ⟨c, t, hct, hc⟩ := decimal_head z n
  have hs := scan_digits_decimal z n rest
  rw [scan_digits_stop n rest h] at hs
  rw [hct] at hs ⊢
  simp only [List.cons_append] at hs ⊢
  rw [strtoul_digit_head c _ hc, hs]

theorem decimal_ne_minus (z n : Nat) (rest : List Char) : decimal z n ++ rest ≠ ['-'] := by
  obtain ⟨c, t, hct, hc⟩ := decimal_head z n
  rw [hct]
  intro h
  simp only [List.cons_append, List.cons.injEq] at h
  rw [h.1] at hc
  exact absurd hc (by decide)

/-- The value of `parse_number` on a decimal token followed by a non-digit character
and anything else. -/
theorem parse_number_decimal (z n : Nat) (rest : List Char)
    (h : isdigit (rest.headD NUL) = false) :
    parse_number (decimal z n ++ rest) =
      (min n ULONG_MAX * scale_of_char (rest.headD NUL)) % 2 ^ 64 := by
  have hmin : (if n > ULONG_MAX then ULONG_MAX else n) = min n ULONG_MAX := by
    simp only [Nat.min_def]
    split <;> split <;> omega
  have hlt : min n ULONG_MAX < 2 ^ 64 := by
    have : min n ULONG_MAX ≤ ULONG_MAX := Nat.min_le_right _ _
    simp only [ULONG_MAX] at this ⊢
    omega
  unfold parse_number scale_of_char
  rw [if_neg (decimal_ne_minus z n rest), strtoul_decimal z n rest h]
  simp only [hmin]
  split
  · rfl
  · split
    · rfl
    · split
      · rfl
      · rw [Nat.mul_one, Nat.mod_eq_of_lt hlt]


theorem strtoul_no_number (t : List Char) (h : starts_with_number t = false) :
    strtoul t = (0, t) := by
  unfold strtoul
  unfold starts_with_number at h
  generalize t.dropWhile isspace = s at h ⊢
  rcases s with _ | ⟨c, r⟩
  · simp
  · by_cases hm : c = '-'
    · subst hm
      rcases r with _ | ⟨d, r⟩
      · simp
      · simp only at h
        simp [h]
    · by_cases hp : c = '+'
      · subst hp
        rcases r with _ | ⟨d, r⟩
        · simp
        · simp only at h
          simp [h]
      · have h3 : isdigit c = false := by
          split at h
          · simp_all
          · simp_all
          · rename_i heq
            obtain ⟨rfl, rfl⟩ := List.cons.inj heq
            exact h
          · simp_all
        dsimp only
        split
        · rename_i heq
          split at heq
          · simp_all
          · simp_all
          · simp_all
        · rename_i c1 t1 heq
          split at heq
          · simp_all
          · simp_all
          · simp only at heq
            obtain ⟨rfl, rfl⟩ := List.cons.inj heq
            simp [h3]

theorem min_ulong (m : Nat) (hm : m < 2 ^ 64) : min m ULONG_MAX = m := by
  simp only [ULONG_MAX, Nat.min_def]
  split <;> omega

/-- The value of `parse_number` on a decimal token with one of the suffixes of the
specification, when the product does not exceed `unsigned long`. -/
theorem parse_number_suffixed (z n scale : Nat) (sfx : List Char)
    (hs : suffix_scale sfx = some scale) (h : n * scale < 2 ^ 64) :
    parse_number (decimal z n ++ sfx) = n * scale := by
  have key : ∀ c : List Char, isdigit (c.headD NUL) = false →
      scale_of_char (c.headD NUL) = scale → parse_number (decimal z n ++ c) = n * scale := by
    intro c hc hsc
    have hn : n < 2 ^ 64 := by
      rcases Nat.eq_zero_or_pos scale with h0 | h0
      · rw [h0] at hsc
        unfold scale_of_char at hsc
        simp only [KB_IN_BYTES, MB_IN_BYTES, GB_IN_BYTES] at hsc
        split at hsc <;> try omega
        split at hsc <;> try omega
        split at hsc <;> omega
      · calc n = n * 1 := (Nat.mul_one n).symm
          _ ≤ n * scale := Nat.mul_le_mul_left n h0
          _ < 2 ^ 64 := h
    rw [parse_number_decimal z n c hc, min_ulong n hn, hsc, Nat.mod_eq_of_lt h]
  unfold suffix_scale at hs
  split at hs <;> simp only [Option.some.injEq, reduceCtorEq] at hs <;> subst hs <;>
    exact key _ (by decide) (by decide)

/-- C2: `parse_number` maps `-` to `ULONG_MAX`, and a decimal integer `n` (with any
number of leading zeros) followed by no suffix, `k`/`K`, `m`/`M` or `g`/`G` to `n`
times 1, 1024, 1024², 1024³, whenever that product is below 2^64; in particular
`1k`, `1m`, `1g` are 1024, 1048576, 1073741824. -/
theorem parse_number_scaled (z n scale : Nat) (sfx : List Char)
    (hs : suffix_scale sfx = some scale) (h : n * scale < 2 ^ 64) :
    parse_number ['-'] = ULONG_MAX ∧
    parse_number (decimal z n ++ sfx) = n * scale ∧
    parse_number ['1', 'k'] = 1024 ∧
    parse_number ['1', 'm'] = 1048576 ∧
    parse_number ['1', 'g'] = 1073741824 :=
  ⟨by decide, parse_number_suffixed z n scale sfx hs h, by decide, by decide, by decide⟩

/-- Witness of C2 at the token `5k`. -/
theorem parse_number_scaled_witness :
    suffix_scale ['k'] = some 1024 ∧ 5 * 1024 < 2 ^ 64 ∧
      parse_number (decimal 0 5 ++ ['k']) = 5 * 1024 :=
  ⟨by decide, by decide, (parse_number_scaled 0 5 1024 ['k'] (by decide) (by decide)).2.1⟩

/-- Counterexample to C7 as stated: the malformed tokens `12x` and `1kb` are not
translated to 0 but to 12 and 1024. -/
theorem parse_number_malformed_nonzero :
    well_formed "12x".data = false ∧ parse_number "12x".data = 12 ∧
    well_formed "1kb".data = false ∧ parse_number "1kb".data = 1024 ∧
    ¬ (∀ t : List Char, well_formed t = false → parse_number t = 0) := by
  refine ⟨by decide, by decide, by decide, by decide, ?_⟩
  intro h
  exact absurd (h "12x".data (by decide)) (by decide)

/-- C7 (amended): a malformed token in which `strtoul` finds no number (after optional
white space and one optional sign the next character is not a digit) is translated
to 0; a malformed token that is a decimal integer `n` followed by a non-digit character
`c` and anything else is translated from its leading part only: `min n ULONG_MAX` times
the factor of `c` (1024, 1024², 1024³ for `k`, `m`, `g` in either case, 1 for any other
character), modulo 2^64.  `parse_number` is a total function: no token raises an error. -/
theorem parse_number_malformed (t : List Char) (hm : well_formed t = false) :
    (starts_with_number t = false → parse_number t = 0) ∧
    (∀ (z n : Nat) (c : Char) (rest : List Char), t = decimal z n ++ c :: rest →
      isdigit c = false →
      parse_number t = (min n ULONG_MAX * scale_of_char c) % 2 ^ 64) := by
  constructor
  · intro hs
    have hne : t ≠ ['-'] := by
      rintro rfl
      exact absurd hm (by decide)
    unfold parse_number
    rw [if_neg hne, strtoul_no_number t hs]
    simp only [Nat.zero_mul, Nat.zero_mod, ite_self]
  · intro z n c rest ht hc
    rw [ht, parse_number_decimal z n (c :: rest) hc]
    rfl

/-- Witness of C7 (amended) at the tokens `abc` and `12x`. -/
theorem parse_number_malformed_witness :
    (well_formed "abc".data = false ∧ parse_number "abc".data = 0) ∧
    (well_formed "12x".data = false ∧
      parse_number "12x".data = (min 12 ULONG_MAX * scale_of_char 'x') % 2 ^ 64) :=
  ⟨⟨by decide, (parse_number_malformed "abc".data (by decide)).1 (by decide)⟩,
   ⟨by decide,
    (parse_number_malformed "12x".data (by decide)).2 0 12 'x' [] (by decide) (by decide)⟩⟩

/-- Counterexample to C8 as stated: 2^54 is accepted, but with the suffix `k` the
product 2^64 wraps to 0, so the translation decreases. -/
theorem parse_number_suffix_not_monotone :
    parse_number (decimal 0 18014398509481984) = 18014398509481984 ∧
    parse_number (decimal 0 18014398509481984 ++ ['k']) = 0 ∧
    ¬ (parse_number (decimal 0 18014398509481984) ≤
        parse_number (decimal 0 18014398509481984 ++ ['k'])) := by
  have h1 : parse_number (decimal 0 18014398509481984 ++ []) = 18014398509481984 := by
    rw [parse_number_decimal 0 _ [] (by decide)]
    decide
  have h2 : parse_number (decimal 0 18014398509481984 ++ ['k']) = 0 := by
    rw [parse_number_decimal 0 _ ['k'] (by decide)]
    decide
  rw [List.append_nil] at h1
  refine ⟨h1, h2, ?_⟩
  rw [h1, h2]
  decide

/-- C8 (amended): for every decimal integer `n` with `n * 1024³ < 2^64` (no product
wraps), the translations are ordered by suffix: none ≤ `k` ≤ `m` ≤ `g`, in either case
of the suffix letter. -/
theorem parse_number_suffix_monotone (z n : Nat) (h : n * GB_IN_BYTES < 2 ^ 64) :
    parse_number (decimal z n) ≤ parse_number (decimal z n ++ ['k']) ∧
    parse_number (decimal z n ++ ['k']) ≤ parse_number (decimal z n ++ ['m']) ∧
    parse_number (decimal z n ++ ['m']) ≤ parse_number (decimal z n ++ ['g']) ∧
    parse_number (decimal z n ++ ['K']) = parse_number (decimal z n ++ ['k']) ∧
    parse_number (decimal z n ++ ['M']) = parse_number (decimal z n ++ ['m']) ∧
    parse_number (decimal z n ++ ['G']) = parse_number (decimal z n ++ ['g']) := by
  simp only [GB_IN_BYTES] at h
  have h0 : parse_number (decimal z n ++ []) = n * 1 :=
    parse_number_suffixed z n 1 [] (by decide) (by omega)
  have hk := parse_number_suffixed z n 1024 ['k'] (by decide) (by omega)
  have hK := parse_number_suffixed z n 1024 ['K'] (by decide) (by omega)
  have hm := parse_number_suffixed z n (1024 ^ 2) ['m'] (by decide) (by omega)
  have hM := parse_number_suffixed z n (1024 ^ 2) ['M'] (by decide) (by omega)
  have hg := parse_number_suffixed z n (1024 ^ 3) ['g'] (by decide) (by omega)
  have hG := parse_number_suffixed z n (1024 ^ 3) ['G'] (by decide) (by omega)
  rw [List.append_nil] at h0
  rw [h0, hk, hK, hm, hM, hg, hG]
  refine ⟨by omega, by omega, by omega, rfl, rfl, rfl⟩

/-- Witness of C8 (amended) at `n = 3`. -/
theorem parse_number_suffix_monotone_witness :
    3 * GB_IN_BYTES < 2 ^ 64 ∧
    parse_number (decimal 0 3) ≤ parse_number (decimal 0 3 ++ ['k']) ∧
    parse_number (decimal 0 3 ++ ['k']) ≤ parse_number (decimal 0 3 ++ ['m']) ∧
    parse_number (decimal 0 3 ++ ['m']) ≤ parse_number (decimal 0 3 ++ ['g']) :=
  ⟨by decide, (parse_number_suffix_monotone 0 3 (by decide)).1,
    (parse_number_suffix_monotone 0 3 (by decide)).2.1,
    (parse_number_suffix_monotone 0 3 (by decide)).2.2.1⟩


/-! ## The child -/

theorem attempted_append (xs ys : List (Call × Bool)) :
    attempted (xs ++ ys) =
      if xs.all Prod.snd then (xs.map Prod.fst) ++ attempted ys else attempted xs := by
  induction xs with
  | nil => simp
  | cons x xs ih =>
    obtain ⟨c, ok⟩ := x
    cases ok
    · simp [attempted]
    · by_cases hx : xs.all Prod.snd = true
      · simp [attempted, ih, hx]
      · simp [attempted, ih, hx]

theorem attempted_not_exec (xs : List (Call × Bool))
    (h : ∀ x ∈ xs, x.1.is_exec = false) : ∀ c ∈ attempted xs, c.is_exec = false := by
  induction xs with
  | nil => simp [attempted]
  | cons x xs ih =>
    obtain ⟨c, ok⟩ := x
    intro d hd
    simp only [attempted, List.mem_cons] at hd
    rcases hd with rfl | hd
    · exact h (d, ok) (List.mem_cons_self _ _)
    · cases ok with
      | false => simp at hd
      | true =>
        exact ih (fun x hx => h x (List.mem_cons_of_mem _ hx)) d (by simpa using hd)

theorem limit_process_spec (os : OS) (p : Prepared) :
    (limit_process os p.memory p.files p.disk).2 = attempted (limit_plan os p) ∧
    (limit_process os p.memory p.files p.disk).1 =
      if (limit_plan os p).all Prod.snd then 0 else 1 := by
  unfold limit_process limit_plan
  by_cases hd : p.disk < ULONG_MAX <;> by_cases hf : p.files < ULONG_MAX <;>
    by_cases hm : p.memory < ULONG_MAX <;>
    cases h1 : os.setrlimit_ok .RLIMIT_FSIZE <;> cases h2 : os.setrlimit_ok .RLIMIT_NOFILE <;>
    cases h3 : os.setrlimit_ok .RLIMIT_AS <;>
    simp [hd, hf, hm, h1, h2, h3, attempted, fail]

theorem attempted_all (xs : List (Call × Bool)) (h : xs.all Prod.snd = true) :
    attempted xs = xs.map Prod.fst := by
  induction xs with
  | nil => rfl
  | cons x xs ih =>
    obtain ⟨c, ok⟩ := x
    simp only [List.all_cons, Bool.and_eq_true] at h
    simp [attempted, h.1, ih h.2]

theorem child_spec (os : OS) (argv : List String) (p : Prepared) :
    (child os argv p).1 = attempted (child_plan os argv p) ∧
    (child os argv p).2 =
      (if (child_plan os argv p).all Prod.snd then Outcome.replaced else Outcome.exited 1) := by
  obtain ⟨hl2, hl1⟩ := limit_process_spec os p
  unfold child child_plan
  cases h1 : os.chroot_ok
  · simp [attempted, fail]
  cases h2 : os.setuid_ok
  · simp [attempted, fail]
  cases h3 : os.chdir_ok
  · simp [attempted, fail]
  cases h4 : os.getpwuid with
  | none => simp [attempted, fail]
  | some pw_dir =>
    simp only [Bool.true_eq_false, if_false, hl1, hl2]
    by_cases hall : (limit_plan os p).all Prod.snd = true
    · cases h5 : os.setenv_ok <;> cases h6 : os.execvpe_ok <;>
        simp [attempted, attempted_append, hall, fail, attempted_all _ hall]
    · simp [attempted, attempted_append, hall, fail]

theorem limit_plan_not_exec (os : OS) (p : Prepared) :
    ∀ x ∈ limit_plan os p, x.1.is_exec = false := by
  intro x hx
  unfold limit_plan at hx
  simp only [List.mem_append] at hx
  rcases hx with (hx | hx) | hx <;> split at hx <;> simp at hx <;> subst hx <;> rfl

theorem child_plan_not_exec (os : OS) (argv : List String) (p : Prepared)
    (h : ((child_plan os argv p).dropLast).all Prod.snd = false) :
    ∀ c ∈ attempted (child_plan os argv p), c.is_exec = false := by
  have hnl := limit_plan_not_exec os p
  have hdrop : (child_plan os argv p).dropLast =
      (Call.chroot SANDBOX_DIR, os.chroot_ok) :: (Call.setuid p.uid, os.setuid_ok) ::
      (Call.chdir p.local_path, os.chdir_ok) :: (Call.getpwuid p.uid, os.getpwuid.isSome) ::
      (limit_plan os p ++ [(Call.setenv "PATH" p.cmd_path, os.setenv_ok)]) := by
    unfold child_plan
    simp only [List.dropLast_cons₂, List.dropLast_cons_of_ne_nil, ne_eq, List.append_eq_nil,
      reduceCtorEq, and_false, not_false_eq_true, List.cons_ne_self]
    congr 4
    rw [show ∀ (a b : Call × Bool), [a, b] = [a] ++ [b] from fun _ _ => rfl,
      ← List.append_assoc, List.dropLast_concat]
  rw [hdrop] at h
  have hpre : ∀ x ∈ (child_plan os argv p).dropLast, x.1.is_exec = false := by
    rw [hdrop]
    intro x hx
    simp only [List.mem_cons, List.mem_append, List.mem_nil_iff, or_false] at hx
    rcases hx with rfl | rfl | rfl | rfl | hx | rfl
    · rfl
    · rfl
    · rfl
    · rfl
    · exact hnl x hx
    · rfl
  have hsplit : child_plan os argv p = (child_plan os argv p).dropLast ++
      [(Call.execvpe (build_arg argv p.argp).cmd ((build_arg argv p.argp).writes.map Prod.snd)
        ["PATH=" ++ p.cmd_path, "HOME=" ++ os.getpwuid.getD "", "DISPLAY=:0"],
        os.execvpe_ok)] := by
    rw [hdrop]
    unfold child_plan
    simp
  rw [hsplit, attempted_append, hdrop, h]
  simp only [Bool.false_eq_true, if_false]
  rw [← hdrop]
  exact attempted_not_exec _ hpre

/-- The child performs its steps in order and stops after the first that fails: the
exec is reached only when chroot, setuid, chdir and every applied ceiling have
succeeded, and whenever one of them fails the child exits with code 1 and never
calls execvpe. -/
theorem child_guarded (os : OS) (argv : List String) (p : Prepared) :
    (child os argv p).1 = attempted (child_plan os argv p) ∧
    ((∃ c ∈ (child os argv p).1, c.is_exec = true) →
      os.chroot_ok = true ∧ os.setuid_ok = true ∧ os.chdir_ok = true ∧
      (limit_plan os p).all Prod.snd = true ∧
      (child os argv p).1 = (child_plan os argv p).map Prod.fst) ∧
    ((os.chroot_ok && os.setuid_ok && os.chdir_ok && (limit_plan os p).all Prod.snd) = false →
      (child os argv p).2 = Outcome.exited 1 ∧ ∀ c ∈ (child os argv p).1, c.is_exec = false) := by
  obtain ⟨ht, ho⟩ := child_spec os argv p
  have hfail : (os.chroot_ok && os.setuid_ok && os.chdir_ok &&
      (limit_plan os p).all Prod.snd) = false →
      (child os argv p).2 = Outcome.exited 1 ∧ ∀ c ∈ (child os argv p).1, c.is_exec = false := by
    intro hf
    constructor
    · rw [ho]
      have : (child_plan os argv p).all Prod.snd = false := by
        unfold child_plan
        cases h1 : os.chroot_ok <;> cases h2 : os.setuid_ok <;> cases h3 : os.chdir_ok <;>
          cases h4 : (limit_plan os p).all Prod.snd <;> simp_all
      simp [this]
    · rw [ht]
      apply child_plan_not_exec
      unfold child_plan
      cases h1 : os.chroot_ok <;> cases h2 : os.setuid_ok <;> cases h3 : os.chdir_ok <;>
        cases h4 : (limit_plan os p).all Prod.snd <;> simp_all [List.dropLast]
  refine ⟨ht, ?_, hfail⟩
  rintro ⟨c, hc, hce⟩
  cases hpre : ((child_plan os argv p).dropLast).all Prod.snd
  · rw [ht] at hc
    rw [child_plan_not_exec os argv p hpre c hc] at hce
    exact absurd hce (by decide)
  · have hdrop : (child_plan os argv p).dropLast =
        (Call.chroot SANDBOX_DIR, os.chroot_ok) :: (Call.setuid p.uid, os.setuid_ok) ::
        (Call.chdir p.local_path, os.chdir_ok) :: (Call.getpwuid p.uid, os.getpwuid.isSome) ::
        (limit_plan os p ++ [(Call.setenv "PATH" p.cmd_path, os.setenv_ok)]) := by
      unfold child_plan
      simp only [List.dropLast_cons₂, List.dropLast_cons_of_ne_nil, ne_eq, List.append_eq_nil,
        reduceCtorEq, and_false, not_false_eq_true, List.cons_ne_self]
      congr 4
      rw [show ∀ (a b : Call × Bool), [a, b] = [a] ++ [b] from fun _ _ => rfl,
        ← List.append_assoc, List.dropLast_concat]
    rw [hdrop] at hpre
    simp only [List.all_cons, List.all_append, List.all_nil, Bool.and_true,
      Bool.and_eq_true] at hpre
    obtain ⟨h1, h2, h3, h5, h4, h6⟩ := hpre
    refine ⟨h1, h2, h3, h4, ?_⟩
    rw [ht]
    unfold child_plan
    simp [h1, h2, h3, h5, h6, attempted, attempted_append, h4, attempted_all _ h4]

/-! ## The parent -/

theorem wait_loop_spec (os : OS) (pre : List Nat) (last : WaitResult)
    (post : List WaitResult)
    (hpre : ∀ x ∈ pre, os.WIFEXITED x = false ∧ os.WIFSIGNALED x = false)
    (hlast : ∀ s, last = .status s → os.WIFEXITED s = true ∨ os.WIFSIGNALED s = true) :
    wait_loop os (pre.map WaitResult.status ++ last :: post) =
      (pre.length + 1, last.ends) := by
  induction pre with
  | nil =>
    cases last with
    | error => rfl
    | signal sig => rfl
    | status s =>
      rcases hlast s rfl with h | h
      · simp [wait_loop, h, WaitResult.ends]
      · simp [wait_loop, h, WaitResult.ends]
  | cons x pre ih =>
    have hx := hpre x (List.mem_cons_self _ _)
    have e : ∀ rest, wait_loop os (.status x :: rest) =
        ((wait_loop os rest).1 + 1, (wait_loop os rest).2) := by
      intro rest
      simp [wait_loop, hx.1, hx.2]
    rw [List.map_cons, List.cons_append, e, ih (fun y hy => hpre y (List.mem_cons_of_mem _ hy))]
    rfl

theorem cleanup_trace (os : OS) (g : Globals) (fs : FS) :
    ∃ tc, (cleanup os g fs).1 = Call.cleanup :: tc ∧ ∀ c ∈ tc, c.is_preparation = true := by
  unfold cleanup
  cases hp : g.path with
  | none => exact ⟨[], rfl, by simp⟩
  | some path =>
    cases hd : g.dir with
    | none =>
      by_cases hu : g.orig_uid > 0
      · simp only [hu, if_true]
        exact ⟨_, rfl, by simp [Call.is_preparation]⟩
      · simp only [hu, if_false]
        exact ⟨_, rfl, by simp⟩
    | some dir =>
      by_cases hu : g.orig_uid > 0
      · simp only [hu, if_true]
        exact ⟨_, rfl, by simp [Call.is_preparation]⟩
      · simp only [hu, if_false]
        exact ⟨_, rfl, by simp [Call.is_preparation]⟩

theorem limit_time_trace (argument : List Char) :
    ∀ c ∈ (limit_time argument).2, c.is_preparation = true := by
  unfold limit_time
  dsimp only
  split <;> simp [Call.is_preparation]

/-- Whenever the staging block reaches the fork, every staging step succeeded, and the
run continues with `run_limited` on the staged and re-owned directory. -/
theorem run_staged_reach (os : OS) (fs : FS) (argv : List String) (argp uid : Nat)
    (dir : String) (h : Call.fork ∈ (run_staged os fs argv argp uid dir).trace) :
    ∃ path path_stat, os.tempnam = some path ∧
      (move_directory os fs dir path).1 = 0 ∧
      lstat os (move_directory os fs dir path).2 path = some path_stat ∧
      (chown_directory_at os (move_directory os fs dir path).2 path uid path_stat.gid).1 = 0 ∧
      run_staged os fs argv argp uid dir =
        ⟨[Call.access dir, Call.access (SANDBOX_DIR ++ TMP_PATH),
            Call.tempnam (SANDBOX_DIR ++ TMP_PATH), Call.move_directory dir path 0,
            Call.lstat path, Call.chown_directory path uid path_stat.gid 0] ++
          (run_limited os
            (chown_directory_at os (move_directory os fs dir path).2 path uid path_stat.gid).2
            argv argp uid ⟨some dir, some path, path_stat.uid, path_stat.gid, 0, 0⟩).trace,
         (run_limited os
            (chown_directory_at os (move_directory os fs dir path).2 path uid path_stat.gid).2
            argv argp uid ⟨some dir, some path, path_stat.uid, path_stat.gid, 0, 0⟩).outcome,
         (run_limited os
            (chown_directory_at os (move_directory os fs dir path).2 path uid path_stat.gid).2
            argv argp uid ⟨some dir, some path, path_stat.uid, path_stat.gid, 0, 0⟩).fs⟩ := by
  unfold run_staged at h ⊢
  dsimp only at h ⊢
  split at h
  · simp at h
  split at h
  · simp at h
  rename_i h4 h5
  rw [if_neg h4, if_neg h5]
  cases h6 : os.tempnam with
  | none =>
    rw [h6] at h
    simp at h
  | some path =>
    rw [h6] at h
    dsimp only at h ⊢
    split at h
    · simp at h
    rename_i h7
    rw [if_neg h7]
    have h7' : (move_directory os fs dir path).1 = 0 := by
      by_contra hne
      exact h7 hne
    cases h8 : lstat os (move_directory os fs dir path).2 path with
    | none =>
      rw [h8] at h
      simp at h
    | some path_stat =>
      rw [h8] at h
      dsimp only at h ⊢
      split at h
      · simp at h
      rename_i h9
      rw [if_neg h9]
      have h9' : (chown_directory_at os (move_directory os fs dir path).2 path uid
          path_stat.gid).1 = 0 := by
        by_contra hne
        exact h9 hne
      refine ⟨path, path_stat, rfl, h7', h8, h9', ?_⟩
      rw [h7', h9']
      rfl

/-- The run from the preparation of the limits on: the alarm, if any, then the fork. -/
theorem run_limited_eq (os : OS) (fs : FS) (argv : List String) (argp uid : Nat) (g : Globals) :
    ∃ tl, run_limited os fs argv argp uid g =
      ⟨(limit_time (argv.getD argp "").data).2 ++
        (run_forked os fs argv { g with time_limit := tl } (prepare argv argp uid g)).trace,
       (run_forked os fs argv { g with time_limit := tl } (prepare argv argp uid g)).outcome,
       (run_forked os fs argv { g with time_limit := tl } (prepare argv argp uid g)).fs⟩ :=
  ⟨_, rfl⟩

/-- Whenever `main` reaches the fork, what it did before is preparation only, and the
rest of the run is `run_forked` with `pid` still 0 and the values prepared from
the arguments. -/
theorem main_reach (os : OS) (fs : FS) (argv : List String)
    (h : Call.fork ∈ (main os fs argv).trace) :
    ∃ t0 g fs1, (∀ c ∈ t0, c.is_preparation = true) ∧ g.pid = 0 ∧
      (main os fs argv).trace = t0 ++
        (run_forked os fs1 argv g (prepare argv (argp_of argv) (uid_of argv) g)).trace ∧
      (main os fs argv).outcome =
        (run_forked os fs1 argv g (prepare argv (argp_of argv) (uid_of argv) g)).outcome ∧
      (main os fs argv).fs =
        (run_forked os fs1 argv g (prepare argv (argp_of argv) (uid_of argv) g)).fs := by
  unfold main at h ⊢
  dsimp only at h ⊢
  split at h
  · simp at h
  split at h
  · simp at h
  rename_i h1 h2
  rw [if_neg h1, if_neg h2]
  by_cases h3 : dir_of argv ≠ "-"
  · rw [if_pos h3] at h ⊢
    have h' : Call.fork ∈ (run_staged os fs argv (argp_of argv) (uid_of argv)
        (dir_of argv)).trace := by
      simpa using h
    obtain ⟨path, path_stat, -, -, -, -, he⟩ := run_staged_reach _ _ _ _ _ _ h'
    rw [he]
    obtain ⟨tl, hl⟩ := run_limited_eq os
      (chown_directory_at os (move_directory os fs (dir_of argv) path).2 path (uid_of argv)
        path_stat.gid).2 argv (argp_of argv) (uid_of argv)
      ⟨some (dir_of argv), some path, path_stat.uid, path_stat.gid, 0, 0⟩
    rw [hl]
    refine ⟨Call.connect_signals :: Call.malloc ::
      ([Call.access (dir_of argv), Call.access (SANDBOX_DIR ++ TMP_PATH),
        Call.tempnam (SANDBOX_DIR ++ TMP_PATH), Call.move_directory (dir_of argv) path 0,
        Call.lstat path, Call.chown_directory path (uid_of argv) path_stat.gid 0] ++
        (limit_time (argv.getD (argp_of argv) "").data).2),
      ⟨some (dir_of argv), some path, path_stat.uid, path_stat.gid, 0, tl⟩, _, ?_, ?_, ?_,
      rfl, rfl⟩
    · intro c hc
      simp only [List.mem_append, List.mem_cons, List.mem_nil_iff, or_false] at hc
      rcases hc with rfl | rfl | (rfl | rfl | rfl | rfl | rfl | rfl) | hc
      all_goals first
        | rfl
        | exact limit_time_trace _ c hc
    · rfl
    · simp
      rfl
  · rw [if_neg h3] at h ⊢
    obtain ⟨tl, hl⟩ := run_limited_eq os fs argv (argp_of argv) (uid_of argv)
      ⟨some (dir_of argv), none, 0, 0, 0, 0⟩
    rw [hl]
    refine ⟨Call.connect_signals :: Call.malloc ::
      (limit_time (argv.getD (argp_of argv) "").data).2,
      ⟨some (dir_of argv), none, 0, 0, 0, tl⟩, _, ?_, ?_, ?_, rfl, rfl⟩
    · intro c hc
      simp only [List.mem_cons] at hc
      rcases hc with rfl | rfl | hc
      · rfl
      · rfl
      · exact limit_time_trace _ c hc
    · rfl
    · simp
      rfl

/-- The run from the fork on, in the child. -/
theorem run_forked_child (os : OS) (fs : FS) (argv : List String) (g : Globals)
    (p : Prepared) (hfork : os.fork = .child) :
    run_forked os fs argv g p = ⟨Call.fork :: (child os argv p).1, (child os argv p).2, fs⟩ := by
  unfold run_forked
  rw [hfork]

theorem not_exec_of_preparation (c : Call) (h : c.is_preparation = true) :
    c.is_exec = false := by
  cases c <;> first | rfl | (simp [Call.is_preparation] at h)

/-- C1: in the forked child of `main`, the calls after the fork are the steps root
change, identity drop, working directory, (home lookup,) the ceilings that are
not unlimited in the order disk, files, memory with soft = hard = the ceiling,
(search path,) exec, in this order and cut after the first step that fails.  So
execvpe is called only after chroot, setuid, chdir and every applied ceiling
have succeeded, and whenever one of them fails the child exits with code 1
without any later step and without calling execvpe. -/
theorem child_exec_guarded (os : OS) (fs : FS) (argv : List String)
    (hreach : Call.fork ∈ (main os fs argv).trace) (hfork : os.fork = .child) :
    ∃ t0 g, (∀ c ∈ t0, c.is_preparation = true) ∧
      (main os fs argv).trace = t0 ++ Call.fork ::
        attempted (child_plan os argv (prepare argv (argp_of argv) (uid_of argv) g)) ∧
      ((∃ c ∈ (main os fs argv).trace, c.is_exec = true) →
        os.chroot_ok = true ∧ os.setuid_ok = true ∧ os.chdir_ok = true ∧
        (limit_plan os (prepare argv (argp_of argv) (uid_of argv) g)).all Prod.snd = true ∧
        (main os fs argv).trace = t0 ++ Call.fork ::
          (child_plan os argv (prepare argv (argp_of argv) (uid_of argv) g)).map Prod.fst) ∧
      ((os.chroot_ok && os.setuid_ok && os.chdir_ok &&
          (limit_plan os (prepare argv (argp_of argv) (uid_of argv) g)).all Prod.snd) = false →
        (main os fs argv).outcome = Outcome.exited 1 ∧
        ∀ c ∈ (main os fs argv).trace, c.is_exec = false) := by
  obtain ⟨t0, g, fs1, ht0, -, htr, hout, -⟩ := main_reach os fs argv hreach
  rw [run_forked_child os fs1 argv g _ hfork] at htr hout
  dsimp only at htr hout
  obtain ⟨hc1, hc2, hc3⟩ := child_guarded os argv (prepare argv (argp_of argv) (uid_of argv) g)
  refine ⟨t0, g, ht0, by rw [htr, hc1], ?_, ?_⟩
  · rintro ⟨c, hc, hce⟩
    rw [htr] at hc
    simp only [List.mem_append, List.mem_cons] at hc
    have hch : ∃ c ∈ (child os argv (prepare argv (argp_of argv) (uid_of argv) g)).1,
        c.is_exec = true := by
      rcases hc with hc | rfl | hc
      · rw [not_exec_of_preparation c (ht0 c hc)] at hce
        exact absurd hce (by decide)
      · exact absurd hce (by decide)
      · exact ⟨c, hc, hce⟩
    obtain ⟨h1, h2, h3, h4, h5⟩ := hc2 hch
    exact ⟨h1, h2, h3, h4, by rw [htr, h5]⟩
  · intro hf
    obtain ⟨h1, h2⟩ := hc3 hf
    refine ⟨by rw [hout, h1], ?_⟩
    intro c hc
    rw [htr] at hc
    simp only [List.mem_append, List.mem_cons] at hc
    rcases hc with hc | rfl | hc
    · exact not_exec_of_preparation c (ht0 c hc)
    · rfl
    · exact h2 c hc

/-- Witness of C1: when `setuid` fails the child stops after it with exit code 1. -/
theorem child_exec_guarded_witness :
    ∃ t0 g, (∀ c ∈ t0, c.is_preparation = true) ∧
      (main os_setuid_fails (sample_fs (sample_tree 1000 100)) (sample_argv "5")).trace =
        t0 ++ Call.fork :: attempted (child_plan os_setuid_fails (sample_argv "5")
          (prepare (sample_argv "5") (argp_of (sample_argv "5")) (uid_of (sample_argv "5")) g)) ∧
      (main os_setuid_fails (sample_fs (sample_tree 1000 100)) (sample_argv "5")).outcome =
         Outcome.exited 1 ∧
      ∀ c ∈ (main os_setuid_fails (sample_fs (sample_tree 1000 100)) (sample_argv "5")).trace,
        c.is_exec = false := by
  obtain ⟨t0, g, h0, h1, -, h3⟩ := child_exec_guarded os_setuid_fails
    (sample_fs (sample_tree 1000 100)) (sample_argv "5") (by decide) rfl
  exact ⟨t0, g, h0, h1, h3 (by simp [os_setuid_fails, os_ok])⟩

theorem count_preparation (t : List Call) (h : ∀ c ∈ t, c.is_preparation = true)
    (d : Call) (hd : d.is_preparation = false) : t.count d = 0 := by
  apply List.count_eq_zero_of_not_mem
  intro hm
  rw [h d hm] at hd
  exact absurd hd (by decide)

/-- The parent when the loop around `waitpid` ends with a status that says the child
exited or was killed by a signal. -/
theorem parent_terminated (os : OS) (g : Globals) (fs : FS) (n s : Nat)
    (hw : wait_loop os os.waits = (n, Waited.terminated s)) :
    (parent os g fs).trace = List.replicate n (Call.waitpid g.pid) ++ (cleanup os g fs).1 ∧
    (parent os g fs).outcome =
      Outcome.exited (if os.WIFEXITED s = true then os.WEXITSTATUS s else 1) ∧
    (parent os g fs).fs = (cleanup os g fs).2 := by
  unfold parent
  rw [hw]
  dsimp only
  cases os.WIFEXITED s <;> simp [fail]

/-- The parent when `waitpid` fails. -/
theorem parent_failed (os : OS) (g : Globals) (fs : FS) (n : Nat)
    (hw : wait_loop os os.waits = (n, Waited.failed)) :
    (parent os g fs).trace = List.replicate n (Call.waitpid g.pid) ∧
    (parent os g fs).outcome = Outcome.exited 1 ∧ (parent os g fs).fs = fs := by
  unfold parent
  rw [hw]
  exact ⟨rfl, rfl, rfl⟩

/-- The run from the fork on, in the parent. -/
theorem run_forked_parent (os : OS) (fs : FS) (argv : List String) (g : Globals)
    (p : Prepared) (pid : Nat) (hfork : os.fork = .parent pid) :
    run_forked os fs argv g p =
      ⟨Call.fork :: (parent os { g with pid := (pid : Int) } fs).trace,
       (parent os { g with pid := (pid : Int) } fs).outcome,
       (parent os { g with pid := (pid : Int) } fs).fs⟩ := by
  unfold run_forked
  rw [hfork]

/-- C3: on the parent's path of `main`, when the calls of `waitpid` first return the
statuses `pre`, none of which says the child exited or was killed by a signal,
(1) and then a status `s` that does, then `waitpid` was called once per status,
`cleanup` is called exactly once, after the last wait, and `main` returns
`WEXITSTATUS(s)` if the child exited and 1 if it was killed by a signal;
(2) and then fails, `main` returns 1. -/
theorem main_returns_child_status (os : OS) (fs : FS) (argv : List String) (pid : Nat)
    (pre : List Nat) (post : List WaitResult)
    (hreach : Call.fork ∈ (main os fs argv).trace) (hfork : os.fork = .parent pid)
    (hpre : ∀ x ∈ pre, os.WIFEXITED x = false ∧ os.WIFSIGNALED x = false) :
    (∀ s, os.waits = pre.map WaitResult.status ++ WaitResult.status s :: post →
      (os.WIFEXITED s = true ∨ os.WIFSIGNALED s = true) →
      (main os fs argv).outcome =
        Outcome.exited (if os.WIFEXITED s = true then os.WEXITSTATUS s else 1) ∧
      (∃ t0 tc, (main os fs argv).trace =
          t0 ++ Call.fork ::
            (List.replicate (pre.length + 1) (Call.waitpid (pid : Int)) ++ Call.cleanup :: tc) ∧
        (∀ c ∈ t0, c.is_preparation = true) ∧ (∀ c ∈ tc, c.is_preparation = true)) ∧
      (main os fs argv).trace.count Call.cleanup = 1 ∧
      (main os fs argv).trace.count (Call.waitpid (pid : Int)) = pre.length + 1) ∧
    (os.waits = pre.map WaitResult.status ++ WaitResult.error :: post →
      (main os fs argv).outcome = Outcome.exited 1 ∧
      (main os fs argv).trace.count (Call.waitpid (pid : Int)) = pre.length + 1 ∧
      (main os fs argv).trace.count Call.cleanup = 0) := by
  obtain ⟨t0, g, fs1, ht0, hg, htr, hout, -⟩ := main_reach os fs argv hreach
  rw [run_forked_parent os fs1 argv g _ pid hfork] at htr hout
  dsimp only at htr hout
  have c0 : t0.count Call.cleanup = 0 := count_preparation t0 ht0 _ rfl
  have w0 : t0.count (Call.waitpid (pid : Int)) = 0 := count_preparation t0 ht0 _ rfl
  constructor
  · intro s hw hs
    have hwl : wait_loop os os.waits = (pre.length + 1, Waited.terminated s) := by
      rw [hw, wait_loop_spec os pre (.status s) post hpre]
      · rfl
      · intro s1 h1
        cases h1
        exact hs
    obtain ⟨h1, h2, -⟩ := parent_terminated os { g with pid := (pid : Int) } fs1 _ s hwl
    obtain ⟨tc, htc, hprep⟩ := cleanup_trace os { g with pid := (pid : Int) } fs1
    rw [h1, htc] at htr
    have ctc : tc.count Call.cleanup = 0 := count_preparation tc hprep _ rfl
    have wtc : tc.count (Call.waitpid (pid : Int)) = 0 := count_preparation tc hprep _ rfl
    refine ⟨by rw [hout, h2], ⟨t0, tc, htr, ht0, hprep⟩, ?_, ?_⟩
    · rw [htr]
      simp [List.count_append, List.count_cons, c0, ctc, List.count_replicate]
    · rw [htr]
      simp [List.count_append, List.count_cons, w0, wtc, List.count_replicate]
  · intro hw
    have hwl : wait_loop os os.waits = (pre.length + 1, Waited.failed) := by
      rw [hw, wait_loop_spec os pre .error post hpre]
      · rfl
      · intro s1 h1
        cases h1
    obtain ⟨h1, h2, -⟩ := parent_failed os { g with pid := (pid : Int) } fs1 _ hwl
    rw [h1] at htr
    refine ⟨by rw [hout, h2], ?_, ?_⟩
    · rw [htr]
      simp [List.count_append, List.count_cons, w0, List.count_replicate]
    · rw [htr]
      simp [List.count_append, List.count_cons, c0, List.count_replicate]

/-- Witness of C3: the child is first reported stopped (status 127), then exited with
code 3 (status 768); and a run in which the second `waitpid` fails. -/
theorem main_returns_child_status_witness :
    (main (os_ok (.parent 42) [.status 127, .status 768]) (sample_fs (sample_tree 1000 100))
      (sample_argv "5")).outcome = Outcome.exited 3 ∧
    (main (os_ok (.parent 42) [.status 127, .status 768]) (sample_fs (sample_tree 1000 100))
      (sample_argv "5")).trace.count Call.cleanup = 1 ∧
    (main (os_ok (.parent 42) [.status 127, .error]) (sample_fs (sample_tree 1000 100))
      (sample_argv "5")).outcome = Outcome.exited 1 :=
  ⟨((main_returns_child_status (os_ok (.parent 42) [.status 127, .status 768])
      (sample_fs (sample_tree 1000 100)) (sample_argv "5") 42 [127] []
      (by decide) rfl (by decide)).1 768 rfl (by decide)).1,
   ((main_returns_child_status (os_ok (.parent 42) [.status 127, .status 768])
      (sample_fs (sample_tree 1000 100)) (sample_argv "5") 42 [127] []
      (by decide) rfl (by decide)).1 768 rfl (by decide)).2.2.1,
   ((main_returns_child_status (os_ok (.parent 42) [.status 127, .error])
      (sample_fs (sample_tree 1000 100)) (sample_argv "5") 42 [127] []
      (by decide) rfl (by decide)).2 rfl).1⟩

/-! ## Ownership -/

mutual
/-- The listing after a successful `chown_directory`: every regular file and directory
has the new owner and group, other entries are unchanged. -/
theorem chown_directory_listing (os : OS) (uid gid : Nat) :
    ∀ (n : Node) (d dir : String), (chown_directory os dir uid gid n).1 = 0 →
      Node.listing d (chown_directory os dir uid gid n).2 =
        (Node.listing d n).map (Listed.chowned uid gid)
  | .reg u g, d, dir, h => by
    unfold chown_directory at h
    split at h <;> simp [fail] at h
  | .other u g, d, dir, h => by
    unfold chown_directory at h
    split at h <;> simp [fail] at h
  | .dir u g es, d, dir, h => by
    unfold chown_directory at h ⊢
    by_cases h1 : os.lchown_ok dir = true
    · by_cases h2 : os.opendir_ok dir = true
      · simp only [h1, h2, if_true] at h ⊢
        simp only [Node.listing, List.map_cons]
        rw [chown_entries_listing os uid gid es d dir h]
        simp [Listed.chowned]
      · simp [h1, h2, fail] at h
    · simp [h1, fail] at h
/-- The listing of the entries after a successful loop of `chown_directory`. -/
theorem chown_entries_listing (os : OS) (uid gid : Nat) :
    ∀ (es : Entries) (d dir : String), (chown_entries os dir uid gid es).1 = 0 →
      Entries.listing d (chown_entries os dir uid gid es).2 =
        (Entries.listing d es).map (Listed.chowned uid gid)
  | .nil, d, dir, _ => by
    simp [chown_entries, Entries.listing]
  | .cons name (.reg u g) rest, d, dir, h => by
    unfold chown_entries at h ⊢
    by_cases h1 : os.lchown_ok (dir ++ "/" ++ name) = true
    · simp only [h1, if_true] at h ⊢
      simp only [Entries.listing, Node.listing, List.map_append, List.map_cons, List.map_nil]
      rw [chown_entries_listing os uid gid rest d dir h]
      simp [Listed.chowned]
    · simp [h1, fail] at h
  | .cons name (.other u g) rest, d, dir, h => by
    unfold chown_entries at h ⊢
    simp only at h ⊢
    simp only [Entries.listing, Node.listing, List.map_append, List.map_cons, List.map_nil]
    rw [chown_entries_listing os uid gid rest d dir h]
    simp [Listed.chowned]
  | .cons name (.dir u g es) rest, d, dir, h => by
    unfold chown_entries at h ⊢
    by_cases h1 : (chown_directory os (dir ++ "/" ++ name) uid gid (.dir u g es)).1 = 0
    · simp only [h1, ne_eq, not_true_eq_false, if_false] at h ⊢
      simp only [Entries.listing, List.map_append]
      rw [chown_entries_listing os uid gid rest d dir h,
        chown_directory_listing os uid gid (.dir u g es) _ _ h1]
    · simp [h1] at h
end

mutual
/-- When `lchown` and `opendir` never fail, `chown_directory` succeeds on a directory. -/
theorem chown_directory_ok (os : OS) (uid gid : Nat) (hl : ∀ p, os.lchown_ok p = true)
    (ho : ∀ p, os.opendir_ok p = true) :
    ∀ (u g : Nat) (es : Entries) (dir : String),
      (chown_directory os dir uid gid (.dir u g es)).1 = 0
  | u, g, es, dir => by
    unfold chown_directory
    simp only [hl, ho, if_true]
    exact chown_entries_ok os uid gid hl ho es dir
/-- When `lchown` and `opendir` never fail, the loop of `chown_directory` succeeds. -/
theorem chown_entries_ok (os : OS) (uid gid : Nat) (hl : ∀ p, os.lchown_ok p = true)
    (ho : ∀ p, os.opendir_ok p = true) :
    ∀ (es : Entries) (dir : String), (chown_entries os dir uid gid es).1 = 0
  | .nil, dir => by simp [chown_entries]
  | .cons name (.reg u g) rest, dir => by
    unfold chown_entries
    simp only [hl, if_true]
    exact chown_entries_ok os uid gid hl ho rest dir
  | .cons name (.other u g) rest, dir => by
    unfold chown_entries
    exact chown_entries_ok os uid gid hl ho rest dir
  | .cons name (.dir u g es) rest, dir => by
    unfold chown_entries
    simp only [chown_directory_ok os uid gid hl ho u g es (dir ++ "/" ++ name), ne_eq,
      not_true_eq_false, if_false]
    exact chown_entries_ok os uid gid hl ho rest dir
end

theorem chown_directory_dir (os : OS) (uid gid u g : Nat) (es : Entries) (dir : String)
    (h : (chown_directory os dir uid gid (.dir u g es)).1 = 0) :
    (chown_directory os dir uid gid (.dir u g es)).2 =
      .dir uid gid (chown_entries os dir uid gid es).2 := by
  unfold chown_directory at h ⊢
  by_cases h1 : os.lchown_ok dir = true
  · by_cases h2 : os.opendir_ok dir = true
    · simp only [h1, h2, if_true]
    · simp [h1, h2, fail] at h
  · simp [h1, fail] at h

theorem FS.set_same (fs : FS) (p : String) (n : Option Node) : (fs.set p n) p = n := by
  simp [FS.set]

theorem FS.set_other (fs : FS) (p q : String) (n : Option Node) (h : q ≠ p) :
    (fs.set p n) q = fs q := by
  simp [FS.set, h]

theorem move_directory_ok (os : OS) (fs : FS) (dir to_ : String) (n : Node)
    (hfs : fs dir = some n) (hr : os.rename dir to_ = .ok) :
    move_directory os fs dir to_ = (0, (fs.set dir none).set to_ (some n)) := by
  unfold move_directory
  rw [hfs]
  dsimp only
  rw [hr]

theorem chowned_chowned (uid gid uid1 gid1 : Nat) (l : List Listed) :
    (l.map (Listed.chowned uid gid)).map (Listed.chowned uid1 gid1) =
      l.map (Listed.chowned uid1 gid1) := by
  rw [List.map_map]
  apply List.map_congr_left
  intro e _
  simp only [Function.comp, Listed.chowned]
  by_cases h : e.d_type = .DT_OTHER
  · simp [h]
  · simp [h]

/-- What `cleanup` leaves when the staged directory is at `path`, the recorded owner is
not 0, and no call fails: the directory is back at `dir`, nothing is at `path`,
and the directory and the entries `lchown` reaches have the recorded owner and group. -/
theorem cleanup_restores (os : OS) (fs : FS) (dir path : String) (u g pid tl : Nat)
    (u1 g1 : Nat) (es1 : Entries)
    (hfs : fs path = some (.dir u1 g1 es1)) (hpath : path ≠ dir) (hu : 0 < u)
    (hrename : ∀ a b, os.rename a b = .ok)
    (hlchown : ∀ p, os.lchown_ok p = true) (hopendir : ∀ p, os.opendir_ok p = true) :
    (cleanup os ⟨some dir, some path, u, g, pid, tl⟩ fs).2 path = none ∧
    (cleanup os ⟨some dir, some path, u, g, pid, tl⟩ fs).2 dir =
      some (.dir u g (chown_entries os path u g es1).2) := by
  have hok := chown_directory_ok os u g hlchown hopendir u1 g1 es1 path
  have hd := chown_directory_dir os u g u1 g1 es1 path hok
  unfold cleanup
  dsimp only
  rw [if_pos hu]
  dsimp only
  have hc : chown_directory_at os fs path u g =
      (0, fs.set path (some (.dir u g (chown_entries os path u g es1).2))) := by
    unfold chown_directory_at
    rw [hfs]
    dsimp only
    rw [hok, hd]
  rw [hc]
  dsimp only
  rw [move_directory_ok os _ path dir _ (FS.set_same _ _ _) (hrename _ _)]
  dsimp only
  constructor
  · rw [FS.set_other _ _ _ _ hpath, FS.set_same]
  · rw [FS.set_same]

/-- The staging block when no call fails: the directory is moved to the staging path,
its owner and group are recorded, and it is handed to `uid`. -/
theorem run_staged_ok (os : OS) (fs : FS) (argv : List String) (argp uid : Nat)
    (dir path : String) (u g : Nat) (es : Entries)
    (hfs : fs dir = some (.dir u g es))
    (haccess : ∀ p, os.access_ok p = true) (htemp : os.tempnam = some path)
    (hrename : ∀ a b, os.rename a b = .ok) (hlstat : ∀ p, os.lstat_ok p = true)
    (hlchown : ∀ p, os.lchown_ok p = true) (hopendir : ∀ p, os.opendir_ok p = true) :
    ∃ fs2, fs2 path = some (.dir uid g (chown_entries os path uid g es).2) ∧
      (run_staged os fs argv argp uid dir).fs =
        (run_limited os fs2 argv argp uid ⟨some dir, some path, u, g, 0, 0⟩).fs ∧
      (run_staged os fs argv argp uid dir).outcome =
        (run_limited os fs2 argv argp uid ⟨some dir, some path, u, g, 0, 0⟩).outcome := by
  have hok := chown_directory_ok os uid g hlchown hopendir u g es path
  have hd := chown_directory_dir os uid g u g es path hok
  have hm := move_directory_ok os fs dir path _ hfs (hrename _ _)
  have hl : lstat os ((fs.set dir none).set path (some (.dir u g es))) path =
      some (.dir u g es) := by
    unfold lstat
    rw [hlstat, if_pos rfl, FS.set_same]
  have hc : chown_directory_at os ((fs.set dir none).set path (some (.dir u g es))) path uid g =
      (0, ((fs.set dir none).set path (some (.dir u g es))).set path
        (some (.dir uid g (chown_entries os path uid g es).2))) := by
    unfold chown_directory_at
    rw [FS.set_same]
    dsimp only
    rw [hok, hd]
  refine ⟨((fs.set dir none).set path (some (.dir u g es))).set path
    (some (.dir uid g (chown_entries os path uid g es).2)), FS.set_same _ _ _, ?_, ?_⟩
  · unfold run_staged
    simp only [haccess, Bool.true_eq_false, if_false, htemp, hm, ne_eq, not_true_eq_false, hl,
      Node.uid, Node.gid, hc]
  · unfold run_staged
    simp only [haccess, Bool.true_eq_false, if_false, htemp, hm, ne_eq, not_true_eq_false, hl,
      Node.uid, Node.gid, hc]

/-- The file system the parent leaves when the wait ends with the child's termination
or with a signal: the one `cleanup` leaves. -/
theorem parent_fs (os : OS) (g : Globals) (fs : FS) (s : Nat)
    (hw : (wait_loop os os.waits).2 = .terminated s ∨ (wait_loop os os.waits).2 = .signalled s) :
    (parent os g fs).fs = (cleanup os g fs).2 := by
  unfold parent
  rcases hw with hw | hw
  · simp only [hw]
    split <;> rfl
  · simp only [hw]
    rfl

/-- Counterexample to C5 as stated: a directory owned by uid 0 (group 100) is moved
back to its original path, but stays owned by the sandbox user 666. -/
theorem root_owned_directory_not_restored :
    ((sample_fs (sample_tree 0 100)) "/home/u/ex").map Node.uid = some 0 ∧
    ((main (os_ok (.parent 42) [.status 0]) (sample_fs (sample_tree 0 100))
      (sample_argv "5")).fs "/home/u/ex").map Node.uid = some SANDBOX_UID ∧
    ((main (os_ok (.parent 42) [.status 0]) (sample_fs (sample_tree 0 100))
      (sample_argv "5")).fs "/home/u/ex").map Node.gid = some 100 ∧
    (main (os_ok (.parent 42) [.status 0]) (sample_fs (sample_tree 0 100))
      (sample_argv "5")).outcome = Outcome.exited 0 := by
  decide

/-- C5 (amended): for every requested directory whose original owner is not uid 0,
with any original group, if no call fails, then after stage-in, the ownership
swap to the run identity and `cleanup` (reached by the child's termination or by
a signal), nothing is left at the staging path and the directory is at its
original path with its original owner and group; the regular files and
directories in it have that owner and group too, other entries are unchanged. -/
theorem ownership_round_trip (os : OS) (fs : FS) (argv : List String) (path : String)
    (u g : Nat) (es : Entries) (pid s : Nat)
    (husage : ¬ argv.length < 6 + argp_of argv) (hdir : dir_of argv ≠ "-")
    (hfs : fs (dir_of argv) = some (.dir u g es)) (hpath : path ≠ dir_of argv)
    (hmalloc : os.malloc_ok = true) (haccess : ∀ p, os.access_ok p = true)
    (htemp : os.tempnam = some path) (hrename : ∀ a b, os.rename a b = .ok)
    (hlstat : ∀ p, os.lstat_ok p = true) (hlchown : ∀ p, os.lchown_ok p = true)
    (hopendir : ∀ p, os.opendir_ok p = true) (hfork : os.fork = .parent pid)
    (hwait : (wait_loop os os.waits).2 = .terminated s ∨ (wait_loop os os.waits).2 = .signalled s)
    (hu : 0 < u) :
    (main os fs argv).fs path = none ∧
    ∃ es1, (main os fs argv).fs (dir_of argv) = some (.dir u g es1) ∧
      Entries.listing (dir_of argv) es1 =
        (Entries.listing (dir_of argv) es).map (Listed.chowned u g) := by
  obtain ⟨fs2, hfs2, hrs, -⟩ := run_staged_ok os fs argv (argp_of argv) (uid_of argv)
    (dir_of argv) path u g es hfs haccess htemp hrename hlstat hlchown hopendir
  obtain ⟨tl, hrl⟩ := run_limited_eq os fs2 argv (argp_of argv) (uid_of argv)
    ⟨some (dir_of argv), some path, u, g, 0, 0⟩
  have hmain : (main os fs argv).fs =
      (cleanup os ⟨some (dir_of argv), some path, u, g, (pid : Int), tl⟩ fs2).2 := by
    unfold main
    dsimp only
    rw [if_neg husage, hmalloc, if_neg (by decide), if_pos hdir]
    dsimp only
    rw [hrs, hrl]
    dsimp only
    rw [run_forked_parent os fs2 argv _ _ pid hfork]
    dsimp only
    rw [parent_fs os _ fs2 s hwait]
  obtain ⟨h1, h2⟩ := cleanup_restores os fs2 (dir_of argv) path u g pid tl _ _ _ hfs2 hpath hu
    hrename hlchown hopendir
  rw [hmain]
  refine ⟨h1, _, h2, ?_⟩
  rw [chown_entries_listing os u g _ _ path (chown_entries_ok os u g hlchown hopendir _ _),
    chown_entries_listing os (uid_of argv) g _ _ path
      (chown_entries_ok os (uid_of argv) g hlchown hopendir _ _),
    chowned_chowned]

/-- Witness of C5 (amended): the sample directory of uid 1000 and group 100. -/
theorem ownership_round_trip_witness :
    (main (os_ok (.parent 42) [.status 0]) (sample_fs (sample_tree 1000 100))
      (sample_argv "5")).fs sample_path = none ∧
    ∃ es1, (main (os_ok (.parent 42) [.status 0]) (sample_fs (sample_tree 1000 100))
        (sample_argv "5")).fs (dir_of (sample_argv "5")) = some (.dir 1000 100 es1) ∧
      Entries.listing (dir_of (sample_argv "5")) es1 =
        (Entries.listing (dir_of (sample_argv "5"))
          (.cons "a.txt" (.reg 1000 100)
            (.cons "sub" (.dir 1000 100 (.cons "b" (.reg 1000 200) .nil))
              (.cons "link" (.other 1000 100) .nil)))).map (Listed.chowned 1000 100) :=
  ownership_round_trip (os_ok (.parent 42) [.status 0]) (sample_fs (sample_tree 1000 100))
    (sample_argv "5") sample_path 1000 100 _ 42 0 (by decide) (by decide) (by rfl)
    (by decide) rfl (fun _ => rfl) rfl (fun _ _ => rfl) (fun _ => rfl) (fun _ => rfl)
    (fun _ => rfl) rfl (by decide) (by decide)

/-- Counterexample to C9 as stated: the file `sub/b` of the sample directory has group
200 before the swap and group 100, the group of the staged directory, after it. -/
theorem swap_changes_group :
    (⟨"/home/u/ex/sub/b", .DT_REG, 1000, 200⟩ : Listed) ∈
      (sample_tree 1000 100).listing "/home/u/ex" ∧
    ((main (os_ok .child []) (sample_fs (sample_tree 1000 100)) (sample_argv "5")).fs
        sample_path).map (Node.listing "/home/u/ex") =
      some [⟨"/home/u/ex", .DT_DIR, 666, 100⟩, ⟨"/home/u/ex/a.txt", .DT_REG, 666, 100⟩,
        ⟨"/home/u/ex/sub", .DT_DIR, 666, 100⟩, ⟨"/home/u/ex/sub/b", .DT_REG, 666, 100⟩,
        ⟨"/home/u/ex/link", .DT_OTHER, 1000, 100⟩] := by
  decide

/-- C9 (amended): the ownership swap after stage-in, `chown_directory(path, uid,
orig_gid)` with `orig_gid` the group `lstat` reports for the staged directory,
when it succeeds, gives the staged directory and every regular file and
directory in it the owner `uid` and the group `orig_gid`: the group of the
staged directory itself is unchanged, and an entry keeps its group exactly when
that already was the group of the staged directory.  Entries of other types
keep owner and group. -/
theorem ownership_swap_owner_and_group (os : OS) (fs : FS) (path : String) (uid : Nat)
    (path_stat : Node) (hstat : lstat os fs path = some path_stat)
    (h : (chown_directory_at os fs path uid path_stat.gid).1 = 0) :
    ∃ n1, (chown_directory_at os fs path uid path_stat.gid).2 path = some n1 ∧
      n1.listing path = (path_stat.listing path).map (Listed.chowned uid path_stat.gid) ∧
      n1.uid = uid ∧ n1.gid = path_stat.gid := by
  have hfs : fs path = some path_stat := by
    unfold lstat at hstat
    split at hstat
    · exact hstat
    · cases hstat
  unfold chown_directory_at at h ⊢
  rw [hfs] at h ⊢
  dsimp only at h ⊢
  refine ⟨_, FS.set_same _ _ _, chown_directory_listing os uid _ path_stat path path h, ?_⟩
  cases path_stat with
  | reg u g =>
    unfold chown_directory at h
    split at h <;> simp [fail] at h
  | other u g =>
    unfold chown_directory at h
    split at h <;> simp [fail] at h
  | dir u g es =>
    rw [chown_directory_dir os uid _ u g es path h]
    exact ⟨rfl, rfl⟩

/-- Witness of C9 (amended): the swap on the staged sample directory. -/
theorem ownership_swap_owner_and_group_witness :
    ∃ n1, (chown_directory_at (os_ok .child []) (FS.set (fun _ => none) sample_path
        (some (sample_tree 1000 100))) sample_path 666 (sample_tree 1000 100).gid).2
        sample_path = some n1 ∧
      n1.listing sample_path = ((sample_tree 1000 100).listing sample_path).map
        (Listed.chowned 666 (sample_tree 1000 100).gid) ∧
      n1.uid = 666 ∧ n1.gid = (sample_tree 1000 100).gid :=
  ownership_swap_owner_and_group (os_ok .child [])
    (FS.set (fun _ => none) sample_path (some (sample_tree 1000 100))) sample_path 666
    (sample_tree 1000 100) (by rfl) (by decide)

/-- When `fork` fails after the preparation, `main` returns 1 and never calls
`cleanup`. -/
theorem fork_failure_skips_cleanup (os : OS) (fs : FS) (argv : List String)
    (hreach : Call.fork ∈ (main os fs argv).trace) (hfork : os.fork = .failed) :
    Call.cleanup ∉ (main os fs argv).trace ∧ (main os fs argv).outcome = Outcome.exited 1 := by
  obtain ⟨t0, g, fs1, ht0, -, htr, hout, -⟩ := main_reach os fs argv hreach
  have hf : run_forked os fs1 argv g (prepare argv (argp_of argv) (uid_of argv) g) =
      ⟨[Call.fork], .exited (fail "main"), fs1⟩ := by
    unfold run_forked
    rw [hfork]
  rw [hf] at htr hout
  refine ⟨?_, hout⟩
  rw [htr]
  intro hm
  simp only [List.mem_append, List.mem_cons, List.mem_nil_iff, or_false, reduceCtorEq] at hm
  exact absurd (ht0 _ hm) (by decide)

/-- C4 (the code at the failing inputs): the sample directory is staged (the move
succeeds), and then `lstat` fails, or the ownership swap fails, or `fork` fails,
or `waitpid` fails.  In each of these runs `main` returns 1 without calling
`cleanup`: the directory is left at the staging path and nothing is at its
original path; after the failed `fork` it is owned by the sandbox user.  When
instead the child exits or a signal arrives during the wait, `cleanup` is
called. -/
theorem cleanup_skipped_on_failure :
    (sample_run os_lstat_fails).abandons_staged ∧
    (sample_run os_chown_fails).abandons_staged ∧
    (sample_run (os_ok .failed [])).abandons_staged ∧
    (sample_run (os_ok (.parent 42) [.error])).abandons_staged ∧
    ((sample_run (os_ok .failed [])).fs sample_path).map Node.uid = some SANDBOX_UID ∧
    Call.cleanup ∈ (sample_run (os_ok (.parent 42) [.status 0])).trace ∧
    Call.cleanup ∈ (sample_run (os_ok (.parent 42) [.signal 15])).trace := by
  decide

/-! ## The time limit -/

/-- What the statement "Limit maximum run time" does for every token: the alarm is set
exactly when the translated value is not a multiple of 2^32, to the value
modulo 2^32. -/
theorem limit_time_spec (argument : List Char) :
    limit_time argument =
      (parse_number argument % 2 ^ 32,
        if parse_number argument % 2 ^ 32 = 0 then []
        else [Call.alarm (parse_number argument % 2 ^ 32)]) := by
  have hlt : parse_number argument % 2 ^ 32 < ULONG_MAX := by
    have := Nat.mod_lt (parse_number argument) (show 0 < 2 ^ 32 by decide)
    simp only [ULONG_MAX]
    omega
  unfold limit_time
  dsimp only
  by_cases h0 : parse_number argument % 2 ^ 32 = 0
  · rw [if_neg (by omega), if_pos h0]
  · rw [if_pos ⟨by omega, hlt⟩, if_neg h0]

/-- C6 (the code at the failing inputs): `main` sets the alarm exactly when the
translated value is not a multiple of 2^32, to that value modulo 2^32.  For the
time token `-` the translated value is the unlimited sentinel `ULONG_MAX`, yet
`main` sets an alarm, of 4294967295 seconds; for the token `4g` the translated
value 4294967296 is finite and not zero, yet `main` sets no alarm; for
`4294967301` the alarm is set to 5 seconds. -/
theorem alarm_set_for_unlimited :
    (∀ t : List Char, (limit_time t).2 =
      if parse_number t % 2 ^ 32 = 0 then [] else [Call.alarm (parse_number t % 2 ^ 32)]) ∧
    parse_number "-".data = ULONG_MAX ∧
    limit_time "-".data = (4294967295, [Call.alarm 4294967295]) ∧
    Call.alarm 4294967295 ∈
      (main (os_ok (.parent 42) [.status 0]) (sample_fs (sample_tree 1000 100))
        (sample_argv "-")).trace ∧
    parse_number "4g".data = 4294967296 ∧ limit_time "4g".data = (0, []) ∧
    (∀ c ∈ (main (os_ok (.parent 42) [.status 0]) (sample_fs (sample_tree 1000 100))
        (sample_argv "4g")).trace, ∀ n, c ≠ Call.alarm n) ∧
    parse_number "4294967301".data = 4294967301 ∧
    limit_time "4294967301".data = (5, [Call.alarm 5]) := by
  refine ⟨fun t => by rw [limit_time_spec t], by decide, by decide, by decide, by decide,
    by decide, ?_, by decide, by decide⟩
  have ht : (main (os_ok (.parent 42) [.status 0]) (sample_fs (sample_tree 1000 100))
      (sample_argv "4g")).trace =
      [Call.connect_signals, Call.malloc, Call.access "/home/u/ex",
        Call.access "/var/sandbox/tmp/grader", Call.tempnam "/var/sandbox/tmp/grader",
        Call.move_directory "/home/u/ex" "/var/sandbox/tmp/grader/fileAbc123" 0,
        Call.lstat "/var/sandbox/tmp/grader/fileAbc123",
        Call.chown_directory "/var/sandbox/tmp/grader/fileAbc123" 666 100 0,
        Call.fork, Call.waitpid 42, Call.cleanup,
        Call.chown_directory "/var/sandbox/tmp/grader/fileAbc123" 1000 100 0,
        Call.move_directory "/var/sandbox/tmp/grader/fileAbc123" "/home/u/ex" 0] := by
    decide
  rw [ht]
  intro c hc n
  simp only [List.mem_cons, List.mem_nil_iff, or_false] at hc
  rcases hc with rfl | rfl | rfl | rfl | rfl | rfl | rfl | rfl | rfl | rfl | rfl | rfl | rfl <;>
    simp

/-! ## The argument vector -/

theorem arg_writes_last (p : Nat) (l : List String) :
    (p + l.length, none) ∈ arg_writes p l := by
  induction l generalizing p with
  | nil => simp [arg_writes]
  | cons a l ih =>
    simp only [arg_writes, List.length_cons, List.mem_cons]
    right
    have := ih (p + 1)
    rw [show p + 1 + l.length = p + (l.length + 1) by omega] at this
    exact this

/-- C10 (the code at the failing inputs): in every invocation the child writes the
terminator of `arg` at an index that is not below the declared length
`argc - (argp + 7)`.  For `chroot_execvp 1 - - - - key prog` the declared length is
0 and indices 0 and 1 are written.  For `chroot_execvp 1 - - - - key`, which passes
the usage check, the command index `argp + 6` equals `argc`, the command is
`argv[argc]`, that is `NULL`, and the declared length is -1. -/
theorem arg_vector_overflows :
    (∀ (argv : List String) (argp : Nat),
      ∃ w ∈ (build_arg argv argp).writes, (build_arg argv argp).declared_length ≤ (w.1 : Int)) ∧
    ¬ (["chroot_execvp", "1", "-", "-", "-", "-", "key", "prog"].length <
        6 + argp_of ["chroot_execvp", "1", "-", "-", "-", "-", "key", "prog"]) ∧
    (build_arg ["chroot_execvp", "1", "-", "-", "-", "-", "key", "prog"] 1).declared_length = 0 ∧
    (build_arg ["chroot_execvp", "1", "-", "-", "-", "-", "key", "prog"] 1).writes =
      [(0, some "prog"), (1, none)] ∧
    ¬ (["chroot_execvp", "1", "-", "-", "-", "-", "key"].length <
        6 + argp_of ["chroot_execvp", "1", "-", "-", "-", "-", "key"]) ∧
    (build_arg ["chroot_execvp", "1", "-", "-", "-", "-", "key"] 1).cmd_index =
      ["chroot_execvp", "1", "-", "-", "-", "-", "key"].length ∧
    (build_arg ["chroot_execvp", "1", "-", "-", "-", "-", "key"] 1).cmd = none ∧
    (build_arg ["chroot_execvp", "1", "-", "-", "-", "-", "key"] 1).declared_length = -1 ∧
    (build_arg ["chroot_execvp", "1", "-", "-", "-", "-", "key"] 1).writes =
      [(0, none), (1, none)] := by
  refine ⟨?_, by decide, by decide, by decide, by decide, by decide, by decide, by decide,
    by decide⟩
  intro argv argp
  refine ⟨(1 + (argv.drop (argp + 7)).length, none), ?_, ?_⟩
  · unfold build_arg
    exact List.mem_cons_of_mem _ (arg_writes_last 1 _)
  · unfold build_arg
    simp only [List.length_drop]
    omega

end ChrootExecvp
